import Mathlib

/-! K1B performance monitors (`k1b-perf.h`, `k1b-perf.c`)

A shallow embedding of the MPPA-256 (k1b) performance-monitor micro-driver.

* `int` arguments are `Int`; `uint32_t` and `uint64_t` values are `Nat`, with the
  conversion to the unsigned type written out (`% 2 ^ 32`, `% 2 ^ 64`) at every
  place where C converts.
* The hardware is a record `Machine`: the control register `$pmc`, the four raw
  counter registers `$pm0` .. `$pm3`, and the trace of the accesses made to
  `$pmc` (oldest first). The `$pmc` register is modelled as plain storage: a read
  returns the word written last.
-/

namespace K1bPerf

/-! ## Constants of `k1b-perf.h` -/

/-- Number of performance events (`K1B_PERF_EVENTS_NUM`). -/
def K1B_PERF_EVENTS_NUM : Int := 14

/-- Number of performance monitors (`K1B_PERF_MONITORS_NUM`). -/
def K1B_PERF_MONITORS_NUM : Int := 2

/-- Performance monitor 0 + 1. -/
def K1B_PERF_PM_0_1 : Int := 0

/-- Performance monitor 2 + 3. -/
def K1B_PERF_PM_2_3 : Int := 1

/-- The value of `EINVAL` in `<errno.h>` (a positive constant of the C library). -/
def EINVAL : Int := 22

/-- Command `K1B_PERF_START(r,x)`, that is `((x) << ((r) << 2))`. -/
def K1B_PERF_START (r x : Nat) : Nat := x <<< (r <<< 2)

/-- Command `K1B_PERF_STOP(r)`, that is `(0xe << ((r) << 2))`. -/
def K1B_PERF_STOP (r : Nat) : Nat := 0xe <<< (r <<< 2)

/-- Command `K1B_PERF_RESET(r)`, that is `(0xf << ((r) << 2))`. -/
def K1B_PERF_RESET (r : Nat) : Nat := 0xf <<< (r <<< 2)

/-- Mask `K1B_PERF_MASK(r)`, that is `(0xf << ((r) << 2))`. -/
def K1B_PERF_MASK (r : Nat) : Nat := 0xf <<< (r <<< 2)

/-- Flag `K1B_PERF_CHAIN_0_1`: enable PM0 and PM1 chaining. -/
def K1B_PERF_CHAIN_0_1 : Nat := 1 <<< 16

/-- Flag `K1B_PERF_CHAIN_2_3`: enable PM2 and PM3 chaining. -/
def K1B_PERF_CHAIN_2_3 : Nat := 1 <<< 17

/-- Flag `K1B_PERF_DMC`: disengage monitors timer. -/
def K1B_PERF_DMC : Nat := 1 <<< 18

/-- Flag `K1B_PERF_SMP`: stop monitors in privileged mode. -/
def K1B_PERF_SMP : Nat := 1 <<< 19

/-- Flag `K1B_PERF_SMD`: stop monitors in debug. -/
def K1B_PERF_SMD : Nat := 1 <<< 20

/-! ## Machine integers -/

/-- Conversion of an `int` value to `uint32_t`. -/
def toU32 (x : Int) : Nat := (x % 2 ^ 32).toNat

/-- Conversion of an `int` value to `uint64_t`. -/
def toU64 (x : Int) : Nat := (x % 2 ^ 64).toNat

/-- Bitwise complement `~x` of an `int` holding `x`, after conversion to `uint32_t`
(the right operand of `pmc &= ~(...)`). -/
def not32 (x : Nat) : Nat := 0xFFFFFFFF ^^^ (x % 2 ^ 32)

/-! ## The hardware -/

/-- One access to the control register `$pmc`. -/
inductive Access where
  | pmcRead : Access
  | pmcWrite (v : Nat) : Access
  deriving DecidableEq

/-- The registers of one processing unit, with the trace of the accesses to `$pmc`. -/
structure Machine where
  pmc : Nat
  pm0 : Nat
  pm1 : Nat
  pm2 : Nat
  pm3 : Nat
  trace : List Access
  deriving DecidableEq

/-- The words written to `$pmc` in a trace, in the order of the writes. -/
def writesOf : List Access → List Nat
  | [] => []
  | Access.pmcRead :: t => writesOf t
  | Access.pmcWrite v :: t => v :: writesOf t

/-- The number of reads of `$pmc` in a trace. -/
def readsOf : List Access → Nat
  | [] => 0
  | Access.pmcRead :: t => readsOf t + 1
  | Access.pmcWrite _ :: t => readsOf t

/-- Raw counter register `$pm<i>`, looked up by slot index. -/
def Machine.pm (s : Machine) (i : Nat) : Nat :=
  match i with
  | 0 => s.pm0
  | 1 => s.pm1
  | 2 => s.pm2
  | _ => s.pm3

/-- All five registers hold 32-bit values. -/
def Machine.WF (s : Machine) : Prop :=
  s.pmc < 2 ^ 32 ∧ s.pm0 < 2 ^ 32 ∧ s.pm1 < 2 ^ 32 ∧ s.pm2 < 2 ^ 32 ∧ s.pm3 < 2 ^ 32

instance (s : Machine) : Decidable s.WF := by
  unfold Machine.WF; infer_instance

/-! ## `k1b-perf.c` -/

/-- Asserts a valid performance monitor. -/
def k1b_perf_monitor_is_valid (perf : Int) : Bool :=
  decide (perf ≥ 0) && decide (perf < K1B_PERF_MONITORS_NUM)

/-- Asserts a valid performance event. -/
def k1b_perf_event_is_valid (event : Int) : Bool :=
  decide (event ≥ 0) && decide (event < K1B_PERF_EVENTS_NUM)

/-- Writes to the PMC register (`set $pmc, %0`). -/
def k1b_pmc_write (pmc : Nat) (s : Machine) : Machine :=
  { s with pmc := pmc, trace := s.trace ++ [Access.pmcWrite pmc] }

/-- Reads the PMC register (`get %0, $pmc`). -/
def k1b_pmc_read (s : Machine) : Nat × Machine :=
  (s.pmc, { s with trace := s.trace ++ [Access.pmcRead] })

/-- Resets a performance monitor: the returned word is the local `pmc` at the
`return`, that is the word that was just written. -/
def k1b_perf_reset (perf : Int) (s : Machine) : Nat × Machine :=
  -- pmY = (pmX = perf << 1) + 1;
  let pmX := toU32 (perf * 2)
  let pmY := (pmX + 1) % 2 ^ 32
  -- pmc = k1b_pmc_read();
  let r := k1b_pmc_read s
  let pmc := r.1
  -- pmc &= ~(K1B_PERF_MASK(pmX) | K1B_PERF_MASK(pmY));
  let pmc := pmc &&& not32 (K1B_PERF_MASK pmX ||| K1B_PERF_MASK pmY)
  -- pmc |= K1B_PERF_RESET(pmX) | K1B_PERF_RESET(pmY);
  let pmc := (pmc ||| (K1B_PERF_RESET pmX ||| K1B_PERF_RESET pmY)) % 2 ^ 32
  -- k1b_pmc_write(pmc); return (pmc);
  (pmc, k1b_pmc_write pmc r.2)

/-- Starts watching for `event` using the performance monitor `perf`. -/
def k1b_perf_start (perf event : Int) (s : Machine) : Int × Machine :=
  if !k1b_perf_monitor_is_valid perf then (-EINVAL, s)
  else if !k1b_perf_event_is_valid event then (-EINVAL, s)
  else
    -- pmY = (pmX = perf << 1) + 1;
    let pmX := toU32 (perf * 2)
    let pmY := (pmX + 1) % 2 ^ 32
    -- pmc = k1b_perf_reset(perf);
    let r := k1b_perf_reset perf s
    let pmc := r.1
    -- pmc &= ~(K1B_PERF_MASK(pmX) | K1B_PERF_MASK(pmY));
    let pmc := pmc &&& not32 (K1B_PERF_MASK pmX ||| K1B_PERF_MASK pmY)
    -- pmc |= K1B_PERF_START(pmX, event) | K1B_PERF_START(pmY, event);
    let pmc := (pmc ||| (K1B_PERF_START pmX event.toNat
                          ||| K1B_PERF_START pmY event.toNat)) % 2 ^ 32
    -- k1b_pmc_write(pmc); return (0);
    (0, k1b_pmc_write pmc r.2)

/-- Stops the performance monitor `perf`. -/
def k1b_perf_stop (perf : Int) (s : Machine) : Int × Machine :=
  if !k1b_perf_monitor_is_valid perf then (-EINVAL, s)
  else
    -- pmY = (pmX = perf << 1) + 1;
    let pmX := toU32 (perf * 2)
    let pmY := (pmX + 1) % 2 ^ 32
    -- pmc = k1b_pmc_read();
    let r := k1b_pmc_read s
    let pmc := r.1
    -- pmc &= ~(K1B_PERF_MASK(pmX) | K1B_PERF_MASK(pmY));
    let pmc := pmc &&& not32 (K1B_PERF_MASK pmX ||| K1B_PERF_MASK pmY)
    -- pmc |= K1B_PERF_STOP(pmX) | K1B_PERF_STOP(pmY);
    let pmc := (pmc ||| (K1B_PERF_STOP pmX ||| K1B_PERF_STOP pmY)) % 2 ^ 32
    -- k1b_pmc_write(pmc); return (0);
    (0, k1b_pmc_write pmc r.2)

/-- Initializes the performance monitors. -/
def k1b_perf_setup (s : Machine) : Machine :=
  -- pmc = K1B_PERF_STOP(0) | K1B_PERF_STOP(1) | K1B_PERF_STOP(2) | K1B_PERF_STOP(3);
  let pmc := (K1B_PERF_STOP 0 ||| K1B_PERF_STOP 1 ||| K1B_PERF_STOP 2 ||| K1B_PERF_STOP 3)
               % 2 ^ 32
  -- pmc |= K1B_PERF_SMD | K1B_PERF_SMP | K1B_PERF_DMC | K1B_PERF_CHAIN_0_1 | K1B_PERF_CHAIN_2_3;
  let pmc := (pmc ||| (K1B_PERF_SMD ||| K1B_PERF_SMP ||| K1B_PERF_DMC
                        ||| K1B_PERF_CHAIN_0_1 ||| K1B_PERF_CHAIN_2_3)) % 2 ^ 32
  -- k1b_pmc_write(pmc);
  let s := k1b_pmc_write pmc s
  -- pmc = k1b_perf_reset(K1B_PERF_PM_0_1);
  let s := (k1b_perf_reset K1B_PERF_PM_0_1 s).2
  -- pmc = k1b_perf_reset(K1B_PERF_PM_2_3);
  (k1b_perf_reset K1B_PERF_PM_2_3 s).2

/-! ## `k1b-perf.h`: reading a monitor -/

/-- Reads a PM register pair: `lo` is the even slot, `hi` the odd slot; the result is
`(((uint64_t) hi) << 32) | lo`, and `(uint64_t) -1` for any other `perf`. -/
def k1b_perf_read (perf : Int) (s : Machine) : Nat :=
  if perf = K1B_PERF_PM_0_1 then
    (((s.pm1 % 2 ^ 32) <<< 32) % 2 ^ 64) ||| (s.pm0 % 2 ^ 32)
  else if perf = K1B_PERF_PM_2_3 then
    (((s.pm3 % 2 ^ 32) <<< 32) % 2 ^ 64) ||| (s.pm2 % 2 ^ 32)
  else
    toU64 (-1)

/-! ## The operations again, with a log of the codec macros they expand

Each `_logged` macro returns the value of the macro of `k1b-perf.h` together with a
record of the slot index and operand it was expanded with; each `_logged` operation is
the operation of `k1b-perf.c` with the macros replaced by their logged form, so the
words it computes are built from the very macro uses it logs. The reset helper also
logs the monitor index it was called with. -/

/-- One expansion of a codec macro, with its slot argument (and event argument for
`K1B_PERF_START`), or one call of the reset helper, with its monitor argument. -/
inductive CodecUse where
  | start (r : Nat) (x : Int) : CodecUse
  | stop (r : Nat) : CodecUse
  | reset (r : Nat) : CodecUse
  | mask (r : Nat) : CodecUse
  | resetCall (perf : Int) : CodecUse
  deriving DecidableEq

/-- A macro use is in range: the slot is one of 0..3, the shift amount `r << 2` is at
most 12, the shifted operand is `0xe`, `0xf` or an event in `0 .. 13`, and the shifted
value is below `2^16`. A call of the reset helper is in range when its monitor index
passes `k1b_perf_monitor_is_valid`. -/
def CodecUse.valid (u : CodecUse) : Bool :=
  match u with
  | CodecUse.start r x =>
      decide (r < 4) && decide (r <<< 2 ≤ 12) && decide (0 ≤ x)
        && decide (x < K1B_PERF_EVENTS_NUM) && decide (K1B_PERF_START r x.toNat < 2 ^ 16)
  | CodecUse.stop r =>
      decide (r < 4) && decide (r <<< 2 ≤ 12) && decide (K1B_PERF_STOP r < 2 ^ 16)
  | CodecUse.reset r =>
      decide (r < 4) && decide (r <<< 2 ≤ 12) && decide (K1B_PERF_RESET r < 2 ^ 16)
  | CodecUse.mask r =>
      decide (r < 4) && decide (r <<< 2 ≤ 12) && decide (K1B_PERF_MASK r < 2 ^ 16)
  | CodecUse.resetCall perf => k1b_perf_monitor_is_valid perf

/-- `K1B_PERF_START(r,x)` with its use. -/
def K1B_PERF_START_logged (r : Nat) (x : Int) : Nat × List CodecUse :=
  (K1B_PERF_START r x.toNat, [CodecUse.start r x])

/-- `K1B_PERF_STOP(r)` with its use. -/
def K1B_PERF_STOP_logged (r : Nat) : Nat × List CodecUse :=
  (K1B_PERF_STOP r, [CodecUse.stop r])

/-- `K1B_PERF_RESET(r)` with its use. -/
def K1B_PERF_RESET_logged (r : Nat) : Nat × List CodecUse :=
  (K1B_PERF_RESET r, [CodecUse.reset r])

/-- `K1B_PERF_MASK(r)` with its use. -/
def K1B_PERF_MASK_logged (r : Nat) : Nat × List CodecUse :=
  (K1B_PERF_MASK r, [CodecUse.mask r])

/-- The `|` of two logged macro values: the uses of the left operand, then of the right. -/
def orLogged (a b : Nat × List CodecUse) : Nat × List CodecUse :=
  (a.1 ||| b.1, a.2 ++ b.2)

/-- `k1b_perf_reset` with the log of its own call and of the macros it expands. -/
def k1b_perf_reset_logged (perf : Int) (s : Machine) : (Nat × Machine) × List CodecUse :=
  -- pmY = (pmX = perf << 1) + 1;
  let pmX := toU32 (perf * 2)
  let pmY := (pmX + 1) % 2 ^ 32
  -- pmc = k1b_pmc_read();
  let r := k1b_pmc_read s
  let pmc := r.1
  -- pmc &= ~(K1B_PERF_MASK(pmX) | K1B_PERF_MASK(pmY));
  let m := orLogged (K1B_PERF_MASK_logged pmX) (K1B_PERF_MASK_logged pmY)
  let pmc := pmc &&& not32 m.1
  -- pmc |= K1B_PERF_RESET(pmX) | K1B_PERF_RESET(pmY);
  let v := orLogged (K1B_PERF_RESET_logged pmX) (K1B_PERF_RESET_logged pmY)
  let pmc := (pmc ||| v.1) % 2 ^ 32
  -- k1b_pmc_write(pmc); return (pmc);
  ((pmc, k1b_pmc_write pmc r.2), CodecUse.resetCall perf :: (m.2 ++ v.2))

/-- `k1b_perf_start` with the log of the macros it expands and of its call of the reset
helper. -/
def k1b_perf_start_logged (perf event : Int) (s : Machine) :
    (Int × Machine) × List CodecUse :=
  if !k1b_perf_monitor_is_valid perf then ((-EINVAL, s), [])
  else if !k1b_perf_event_is_valid event then ((-EINVAL, s), [])
  else
    -- pmY = (pmX = perf << 1) + 1;
    let pmX := toU32 (perf * 2)
    let pmY := (pmX + 1) % 2 ^ 32
    -- pmc = k1b_perf_reset(perf);
    let rr := k1b_perf_reset_logged perf s
    let pmc := rr.1.1
    -- pmc &= ~(K1B_PERF_MASK(pmX) | K1B_PERF_MASK(pmY));
    let m := orLogged (K1B_PERF_MASK_logged pmX) (K1B_PERF_MASK_logged pmY)
    let pmc := pmc &&& not32 m.1
    -- pmc |= K1B_PERF_START(pmX, event) | K1B_PERF_START(pmY, event);
    let v := orLogged (K1B_PERF_START_logged pmX event) (K1B_PERF_START_logged pmY event)
    let pmc := (pmc ||| v.1) % 2 ^ 32
    -- k1b_pmc_write(pmc); return (0);
    ((0, k1b_pmc_write pmc rr.1.2), rr.2 ++ (m.2 ++ v.2))

/-- `k1b_perf_stop` with the log of the macros it expands. -/
def k1b_perf_stop_logged (perf : Int) (s : Machine) : (Int × Machine) × List CodecUse :=
  if !k1b_perf_monitor_is_valid perf then ((-EINVAL, s), [])
  else
    -- pmY = (pmX = perf << 1) + 1;
    let pmX := toU32 (perf * 2)
    let pmY := (pmX + 1) % 2 ^ 32
    -- pmc = k1b_pmc_read();
    let r := k1b_pmc_read s
    let pmc := r.1
    -- pmc &= ~(K1B_PERF_MASK(pmX) | K1B_PERF_MASK(pmY));
    let m := orLogged (K1B_PERF_MASK_logged pmX) (K1B_PERF_MASK_logged pmY)
    let pmc := pmc &&& not32 m.1
    -- pmc |= K1B_PERF_STOP(pmX) | K1B_PERF_STOP(pmY);
    let v := orLogged (K1B_PERF_STOP_logged pmX) (K1B_PERF_STOP_logged pmY)
    let pmc := (pmc ||| v.1) % 2 ^ 32
    -- k1b_pmc_write(pmc); return (0);
    ((0, k1b_pmc_write pmc r.2), m.2 ++ v.2)

/-- `k1b_perf_setup` with the log of the macros it expands and of its two calls of the
reset helper. -/
def k1b_perf_setup_logged (s : Machine) : Machine × List CodecUse :=
  -- pmc = K1B_PERF_STOP(0) | K1B_PERF_STOP(1) | K1B_PERF_STOP(2) | K1B_PERF_STOP(3);
  let a := orLogged (orLogged (orLogged (K1B_PERF_STOP_logged 0) (K1B_PERF_STOP_logged 1))
             (K1B_PERF_STOP_logged 2)) (K1B_PERF_STOP_logged 3)
  let pmc := a.1 % 2 ^ 32
  -- pmc |= K1B_PERF_SMD | K1B_PERF_SMP | K1B_PERF_DMC | K1B_PERF_CHAIN_0_1 | K1B_PERF_CHAIN_2_3;
  let pmc := (pmc ||| (K1B_PERF_SMD ||| K1B_PERF_SMP ||| K1B_PERF_DMC
                        ||| K1B_PERF_CHAIN_0_1 ||| K1B_PERF_CHAIN_2_3)) % 2 ^ 32
  -- k1b_pmc_write(pmc);
  let s := k1b_pmc_write pmc s
  -- pmc = k1b_perf_reset(K1B_PERF_PM_0_1);
  let r0 := k1b_perf_reset_logged K1B_PERF_PM_0_1 s
  -- pmc = k1b_perf_reset(K1B_PERF_PM_2_3);
  let r1 := k1b_perf_reset_logged K1B_PERF_PM_2_3 r0.1.2
  (r1.1.2, a.2 ++ (r0.2 ++ r1.2))

/-! ## Observations used to state the properties -/

/-- The 4-bit command nibble of slot `r` in a control-register word: the field that
`(x) << ((r) << 2)` writes. -/
def slotNibble (w r : Nat) : Nat := (w >>> (r <<< 2)) &&& 0xf

/-- A 32-bit word with the two command nibbles of monitor `m` (slots `2m`, `2m+1`)
cleared. -/
def clearMonitor (w m : Nat) : Nat := w &&& (0xFFFFFFFF ^^^ (0xFF <<< (8 * m)))

/-- One call of the public interface that changes the control register. -/
inductive Call where
  | start (perf event : Int) : Call
  | stop (perf : Int) : Call
  deriving DecidableEq

/-- The machine after one call (the status is dropped). -/
def Call.exec (c : Call) (s : Machine) : Machine :=
  match c with
  | Call.start perf event => (k1b_perf_start perf event s).2
  | Call.stop perf => (k1b_perf_stop perf s).2

/-- The machine after a sequence of calls, first call first. -/
def runCalls (cs : List Call) (s : Machine) : Machine :=
  cs.foldl (fun st c => c.exec st) s

/-- The accesses to `$pmc` that a run from `s` to `t` added to the trace. -/
def newAccesses (s t : Machine) : List Access := t.trace.drop s.trace.length

/-- Word `v` agrees with word `w` on every bit outside the two command nibbles of
monitor `m` (bits `8m .. 8m+7`). -/
def agreeOutside (m w v : Nat) : Prop :=
  ∀ i, ¬ (8 * m ≤ i ∧ i < 8 * m + 8) → v.testBit i = w.testBit i

/-- The shape claimed for reachable control words: bits 16..20 set and nothing above
them, and equal command nibbles in the two slots of each monitor. -/
def pmcInvariant (w : Nat) : Prop :=
  w >>> 16 = 0x1f ∧ slotNibble w 0 = slotNibble w 1 ∧ slotNibble w 2 = slotNibble w 3

instance (w : Nat) : Decidable (pmcInvariant w) := by
  unfold pmcInvariant; infer_instance

/-- A machine with an arbitrary-looking control word, used for concrete evaluations. -/
def exampleMachine : Machine :=
  { pmc := 0xABCD1234, pm0 := 5, pm1 := 7, pm2 := 0xFFFFFFFF, pm3 := 0xFFFFFFFE, trace := [] }

/-- A machine whose registers are all zero. -/
def zeroMachine : Machine :=
  { pmc := 0, pm0 := 0, pm1 := 0, pm2 := 0, pm3 := 0, trace := [] }

/-- A machine whose four command nibbles hold the stop sentinel, with the flags set. -/
def stoppedMachine : Machine :=
  { pmc := 0x001FEEEE, pm0 := 0, pm1 := 0, pm2 := 0, pm3 := 0, trace := [] }

/-! ## Bit-level lemmas -/

theorem testBit_not32 (x i : Nat) :
    (not32 x).testBit i = (decide (i < 32) && !x.testBit i) := by
  have h : (0xFFFFFFFF : Nat) = 2 ^ 32 - 1 := by norm_num
  unfold not32
  rw [h, Nat.testBit_xor, Nat.testBit_two_pow_sub_one, Nat.testBit_mod_two_pow]
  by_cases hi : i < 32 <;> simp [hi]

theorem not32_lt (x : Nat) : not32 x < 2 ^ 32 := by
  apply Nat.lt_pow_two_of_testBit
  intro i hi
  rw [testBit_not32]
  have : ¬ i < 32 := by omega
  simp [this]

theorem testBit_fifteen (j : Nat) : Nat.testBit 15 j = decide (j < 4) := by
  have h : (15 : Nat) = 2 ^ 4 - 1 := by norm_num
  rw [h, Nat.testBit_two_pow_sub_one]

theorem testBit_fourteen (j : Nat) :
    Nat.testBit 14 j = (decide (1 ≤ j) && decide (j < 4)) := by
  by_cases h : j < 4
  · interval_cases j <;> decide
  · have h14 : (14 : Nat) < 2 ^ j :=
      lt_of_lt_of_le (by norm_num : (14 : Nat) < 2 ^ 4)
        (Nat.pow_le_pow_right (by norm_num) (by omega))
    rw [Nat.testBit_lt_two_pow h14]
    simp [h]

theorem testBit_high (x n i : Nat) (hx : x < 2 ^ n) (hi : n ≤ i) : x.testBit i = false :=
  Nat.testBit_lt_two_pow (lt_of_lt_of_le hx (Nat.pow_le_pow_right (by norm_num) hi))

/-- A masked read-modify-write with a 32-bit operand stays inside 32 bits. -/
theorem rmw_mod (w M V : Nat) (hV : V < 2 ^ 32) :
    ((w &&& not32 M) ||| V) % 2 ^ 32 = (w &&& not32 M) ||| V :=
  Nat.mod_eq_of_lt (Nat.or_lt_two_pow (Nat.and_lt_two_pow _ (not32_lt M)) hV)

/-- A second masked write over the same mask forgets what the first one put there. -/
theorem rmw_rmw (w M R V : Nat) (hR : R &&& not32 M = 0) :
    ((w &&& not32 M) ||| R) &&& not32 M ||| V = (w &&& not32 M) ||| V := by
  apply Nat.eq_of_testBit_eq
  intro i
  have h := congrArg (fun x => Nat.testBit x i) hR
  simp only [Nat.testBit_and, Nat.zero_testBit] at h
  simp only [Nat.testBit_and, Nat.testBit_or]
  cases hw : w.testBit i <;> cases hn : (not32 M).testBit i <;>
    cases hr : R.testBit i <;> simp_all

theorem testBit_pairMask (k i : Nat) :
    (15 <<< k ||| 15 <<< (k + 4)).testBit i = decide (k ≤ i ∧ i < k + 8) := by
  simp only [Nat.testBit_or, Nat.testBit_shiftLeft, testBit_fifteen]
  rw [Bool.eq_iff_iff]
  simp
  omega

theorem testBit_pairStop (k i : Nat) :
    (14 <<< k ||| 14 <<< (k + 4)).testBit i =
      decide ((k + 1 ≤ i ∧ i < k + 4) ∨ (k + 5 ≤ i ∧ i < k + 8)) := by
  simp only [Nat.testBit_or, Nat.testBit_shiftLeft, testBit_fourteen]
  rw [Bool.eq_iff_iff]
  simp
  omega

theorem pairMask_lt (k : Nat) (hk : k ≤ 24) : (15 <<< k ||| 15 <<< (k + 4)) < 2 ^ 32 := by
  apply Nat.lt_pow_two_of_testBit
  intro i hi
  rw [testBit_pairMask]
  simp
  omega

theorem pairStop_lt (k : Nat) (hk : k ≤ 24) : (14 <<< k ||| 14 <<< (k + 4)) < 2 ^ 32 := by
  apply Nat.lt_pow_two_of_testBit
  intro i hi
  rw [testBit_pairStop]
  simp
  omega

theorem pairStart_lt (e k : Nat) (he : e < 14) (hk : k ≤ 24) :
    (e <<< k ||| e <<< (k + 4)) < 2 ^ 32 := by
  apply Nat.lt_pow_two_of_testBit
  intro i hi
  simp only [Nat.testBit_or, Nat.testBit_shiftLeft]
  rw [testBit_high e 4 (i - k) (by omega) (by omega),
    testBit_high e 4 (i - (k + 4)) (by omega) (by omega)]
  simp

/-- What lies under the mask of a monitor is erased by the complement of that mask. -/
theorem under_mask (V k : Nat) (hV : ∀ i, V.testBit i = true → k ≤ i ∧ i < k + 8) :
    V &&& not32 (15 <<< k ||| 15 <<< (k + 4)) = 0 := by
  apply Nat.eq_of_testBit_eq
  intro i
  simp only [Nat.testBit_and, testBit_not32, testBit_pairMask, Nat.zero_testBit]
  cases hb : V.testBit i
  · simp
  · have := hV i hb
    simp [this]

/-! ## The validity checks and the slot indices -/

theorem monitor_valid_iff (perf : Int) :
    k1b_perf_monitor_is_valid perf = true ↔ 0 ≤ perf ∧ perf < 2 := by
  simp [k1b_perf_monitor_is_valid, K1B_PERF_MONITORS_NUM]

theorem event_valid_iff (event : Int) :
    k1b_perf_event_is_valid event = true ↔ 0 ≤ event ∧ event < 14 := by
  simp [k1b_perf_event_is_valid, K1B_PERF_EVENTS_NUM]

theorem toU32_double (m : Nat) (hm : m < 2) : toU32 ((m : Int) * 2) = 2 * m := by
  unfold toU32
  have h : ((m : Int) * 2) % 2 ^ 32 = (m : Int) * 2 := Int.emod_eq_of_lt (by omega) (by omega)
  rw [h]
  omega

theorem shiftX (m : Nat) : (2 * m) <<< 2 = 8 * m := by
  rw [Nat.shiftLeft_eq]; omega

theorem shiftY (m : Nat) (hm : m < 2) : ((2 * m + 1) % 2 ^ 32) <<< 2 = 8 * m + 4 := by
  rw [Nat.mod_eq_of_lt (by omega), Nat.shiftLeft_eq]; omega

/-! ## The operations on a valid monitor, in closed form -/

theorem reset_pmc (s : Machine) (m : Nat) (hm : m < 2) :
    k1b_perf_reset m s =
      (s.pmc &&& not32 (15 <<< (8 * m) ||| 15 <<< (8 * m + 4))
          ||| (15 <<< (8 * m) ||| 15 <<< (8 * m + 4)),
        { s with
          pmc := s.pmc &&& not32 (15 <<< (8 * m) ||| 15 <<< (8 * m + 4))
                  ||| (15 <<< (8 * m) ||| 15 <<< (8 * m + 4)),
          trace := s.trace ++ [Access.pmcRead] ++
            [Access.pmcWrite (s.pmc &&& not32 (15 <<< (8 * m) ||| 15 <<< (8 * m + 4))
                  ||| (15 <<< (8 * m) ||| 15 <<< (8 * m + 4)))] }) := by
  simp only [k1b_perf_reset, k1b_pmc_read, k1b_pmc_write, K1B_PERF_MASK, K1B_PERF_RESET,
    toU32_double m hm, shiftX, shiftY m hm]
  rw [rmw_mod _ _ _ (pairMask_lt _ (by omega))]

theorem stop_valid (s : Machine) (m : Nat) (hm : m < 2) :
    k1b_perf_stop m s =
      (0, { s with
          pmc := s.pmc &&& not32 (15 <<< (8 * m) ||| 15 <<< (8 * m + 4))
                  ||| (14 <<< (8 * m) ||| 14 <<< (8 * m + 4)),
          trace := s.trace ++ [Access.pmcRead] ++
            [Access.pmcWrite (s.pmc &&& not32 (15 <<< (8 * m) ||| 15 <<< (8 * m + 4))
                  ||| (14 <<< (8 * m) ||| 14 <<< (8 * m + 4)))] }) := by
  have hv : k1b_perf_monitor_is_valid (m : Int) = true := by
    rw [monitor_valid_iff]; omega
  simp only [k1b_perf_stop, hv, k1b_pmc_read, k1b_pmc_write, K1B_PERF_MASK, K1B_PERF_STOP,
    toU32_double m hm, shiftX, shiftY m hm, Bool.not_true, Bool.false_eq_true, if_false]
  rw [rmw_mod _ _ _ (pairStop_lt _ (by omega))]

theorem start_valid (s : Machine) (m e : Nat) (hm : m < 2) (he : e < 14) :
    k1b_perf_start m e s =
      (0, { s with
          pmc := s.pmc &&& not32 (15 <<< (8 * m) ||| 15 <<< (8 * m + 4))
                  ||| (e <<< (8 * m) ||| e <<< (8 * m + 4)),
          trace := s.trace ++ [Access.pmcRead] ++
            [Access.pmcWrite (s.pmc &&& not32 (15 <<< (8 * m) ||| 15 <<< (8 * m + 4))
                  ||| (15 <<< (8 * m) ||| 15 <<< (8 * m + 4)))] ++
            [Access.pmcWrite (s.pmc &&& not32 (15 <<< (8 * m) ||| 15 <<< (8 * m + 4))
                  ||| (e <<< (8 * m) ||| e <<< (8 * m + 4)))] }) := by
  have hv : k1b_perf_monitor_is_valid (m : Int) = true := by
    rw [monitor_valid_iff]; omega
  have hev : k1b_perf_event_is_valid (e : Int) = true := by
    rw [event_valid_iff]; omega
  have hR : (15 <<< (8 * m) ||| 15 <<< (8 * m + 4))
      &&& not32 (15 <<< (8 * m) ||| 15 <<< (8 * m + 4)) = 0 := by
    apply under_mask
    intro i hi
    rw [testBit_pairMask] at hi
    simpa using hi
  simp only [k1b_perf_start, hv, hev, reset_pmc s m hm, k1b_pmc_write, K1B_PERF_MASK,
    K1B_PERF_START, toU32_double m hm, shiftX, shiftY m hm, Bool.not_true, Bool.false_eq_true,
    if_false, Int.toNat_ofNat]
  rw [rmw_rmw _ _ _ _ hR, rmw_mod _ _ _ (pairStart_lt e _ he (by omega))]

theorem stop_invalid (s : Machine) (perf : Int) (h : ¬ (0 ≤ perf ∧ perf < 2)) :
    k1b_perf_stop perf s = (-EINVAL, s) := by
  have hv : k1b_perf_monitor_is_valid perf = false := by
    rw [← Bool.not_eq_true, monitor_valid_iff]; exact h
  simp [k1b_perf_stop, hv]

theorem start_invalid (s : Machine) (perf event : Int)
    (h : ¬ (0 ≤ perf ∧ perf < 2 ∧ 0 ≤ event ∧ event < 14)) :
    k1b_perf_start perf event s = (-EINVAL, s) := by
  unfold k1b_perf_start
  cases hv : k1b_perf_monitor_is_valid perf
  · simp
  · cases hev : k1b_perf_event_is_valid event
    · simp
    · rw [monitor_valid_iff] at hv
      rw [event_valid_iff] at hev
      exact absurd ⟨hv.1, hv.2, hev.1, hev.2⟩ h

/-- A valid `int` monitor index is one of the naturals 0 and 1. -/
theorem valid_int_is_nat (perf : Int) (h : 0 ≤ perf ∧ perf < 2) :
    ∃ m : Nat, m < 2 ∧ perf = (m : Int) :=
  ⟨perf.toNat, by omega, by omega⟩

/-- A valid `int` event is a natural below 14. -/
theorem valid_event_is_nat (event : Int) (h : 0 ≤ event ∧ event < 14) :
    ∃ e : Nat, e < 14 ∧ event = (e : Int) :=
  ⟨event.toNat, by omega, by omega⟩

/-! ## Bits of the control register after a masked write -/

theorem slotNibble_testBit (w r j : Nat) :
    (slotNibble w r).testBit j = (w.testBit (4 * r + j) && decide (j < 4)) := by
  have h : r <<< 2 = 4 * r := by rw [Nat.shiftLeft_eq]; omega
  have h15 : (0xf : Nat) = 15 := rfl
  unfold slotNibble
  rw [h, h15, Nat.testBit_and, Nat.testBit_shiftRight, testBit_fifteen]

/-- Bits of a word after a masked write on the pair of nibbles starting at bit `k`. -/
theorem testBit_rmw (w V k i : Nat) :
    (w &&& not32 (15 <<< k ||| 15 <<< (k + 4)) ||| V).testBit i =
      ((w.testBit i && (decide (i < 32) && !decide (k ≤ i ∧ i < k + 8))) || V.testBit i) := by
  rw [Nat.testBit_or, Nat.testBit_and, testBit_not32, testBit_pairMask]

/-- Both nibbles of the pair read back the 4-bit value written to them. -/
theorem slotNibble_rmw (w v m : Nat) (hv : v < 16) :
    slotNibble (w &&& not32 (15 <<< (8 * m) ||| 15 <<< (8 * m + 4))
        ||| (v <<< (8 * m) ||| v <<< (8 * m + 4))) (2 * m) = v ∧
    slotNibble (w &&& not32 (15 <<< (8 * m) ||| 15 <<< (8 * m + 4))
        ||| (v <<< (8 * m) ||| v <<< (8 * m + 4))) (2 * m + 1) = v := by
  constructor
  · apply Nat.eq_of_testBit_eq
    intro j
    rw [slotNibble_testBit, testBit_rmw, Nat.testBit_or, Nat.testBit_shiftLeft,
      Nat.testBit_shiftLeft]
    by_cases hj : j < 4
    · have h1 : 4 * (2 * m) + j - 8 * m = j := by omega
      have h2 : ¬ (4 * (2 * m) + j ≥ 8 * m + 4) := by omega
      have h3 : (8 * m ≤ 4 * (2 * m) + j ∧ 4 * (2 * m) + j < 8 * m + 8) := by omega
      simp [h1, h2, h3, hj]
    · rw [testBit_high v 4 j (by omega) (by omega)]
      simp [hj]
  · apply Nat.eq_of_testBit_eq
    intro j
    rw [slotNibble_testBit, testBit_rmw, Nat.testBit_or, Nat.testBit_shiftLeft,
      Nat.testBit_shiftLeft]
    by_cases hj : j < 4
    · have h1 : 4 * (2 * m + 1) + j - (8 * m + 4) = j := by omega
      have h2 : 4 * (2 * m + 1) + j - 8 * m = j + 4 := by omega
      have h3 : (8 * m ≤ 4 * (2 * m + 1) + j ∧ 4 * (2 * m + 1) + j < 8 * m + 8) := by omega
      have h4 : 4 * (2 * m + 1) + j ≥ 8 * m + 4 := by omega
      rw [h1, h2, testBit_high v 4 (j + 4) (by omega) (by omega)]
      simp [h3, h4, hj]
    · rw [testBit_high v 4 j (by omega) (by omega)]
      simp [hj]

/-- Outside the pair of nibbles a masked write keeps every bit of a 32-bit word. -/
theorem testBit_rmw_outside (w V k i : Nat) (hw : w < 2 ^ 32)
    (hV : ∀ j, V.testBit j = true → k ≤ j ∧ j < k + 8) (hi : ¬ (k ≤ i ∧ i < k + 8)) :
    (w &&& not32 (15 <<< k ||| 15 <<< (k + 4)) ||| V).testBit i = w.testBit i := by
  rw [testBit_rmw]
  have hVi : V.testBit i = false := by
    cases hb : V.testBit i
    · rfl
    · exact absurd (hV i hb) hi
  by_cases h32 : i < 32
  · simp [hVi, hi, h32]
  · rw [testBit_high w 32 i hw (by omega)]
    simp [hVi]

theorem pairStart_bits (e k j : Nat) (he : e < 14)
    (h : (e <<< k ||| e <<< (k + 4)).testBit j = true) : k ≤ j ∧ j < k + 8 := by
  rw [Nat.testBit_or, Nat.testBit_shiftLeft, Nat.testBit_shiftLeft] at h
  by_contra hc
  by_cases h1 : j < k
  · have h2 : ¬ (j ≥ k) := by omega
    have h3 : ¬ (j ≥ k + 4) := by omega
    simp [h2, h3] at h
  · have h4 : e.testBit (j - k) = false := testBit_high e 4 _ (by omega) (by omega)
    have h5 : e.testBit (j - (k + 4)) = false := testBit_high e 4 _ (by omega) (by omega)
    simp [h4, h5] at h

theorem pairStop_bits (k j : Nat)
    (h : (14 <<< k ||| 14 <<< (k + 4)).testBit j = true) : k ≤ j ∧ j < k + 8 := by
  rw [testBit_pairStop] at h
  simp at h
  omega

theorem clearMonitor_eq (w m : Nat) (hm : m < 2) :
    clearMonitor w m = w &&& not32 (15 <<< (8 * m) ||| 15 <<< (8 * m + 4)) := by
  unfold clearMonitor
  congr 1
  have hm' : m = 0 ∨ m = 1 := by omega
  rcases hm' with rfl | rfl <;> decide

/-! ## Starting and stopping a monitor -/

/-- C1: `k1b_perf_start(perf, event)` returns 0 exactly when `0 <= perf < 2` and
`0 <= event < 14`; for every other pair of `int` arguments (negative ones included) it
returns `-EINVAL`, makes no access to the control register (the trace, hence the list of
writes, is the one before the call) and leaves the control register, and the whole
machine, as it was. -/
theorem k1b_perf_start_status (perf event : Int) (s : Machine) :
    ((k1b_perf_start perf event s).1 = 0 ↔
        (0 ≤ perf ∧ perf < 2 ∧ 0 ≤ event ∧ event < 14)) ∧
    (¬ (0 ≤ perf ∧ perf < 2 ∧ 0 ≤ event ∧ event < 14) →
        (k1b_perf_start perf event s).1 = -EINVAL ∧
        writesOf (k1b_perf_start perf event s).2.trace = writesOf s.trace ∧
        (k1b_perf_start perf event s).2.pmc = s.pmc ∧
        (k1b_perf_start perf event s).2 = s) := by
  have hinv : ¬ (0 ≤ perf ∧ perf < 2 ∧ 0 ≤ event ∧ event < 14) →
      k1b_perf_start perf event s = (-EINVAL, s) := start_invalid s perf event
  refine ⟨⟨fun h0 => ?_, fun hv => ?_⟩, fun hn => ?_⟩
  · by_contra hn
    rw [hinv hn] at h0
    simp [EINVAL] at h0
  · obtain ⟨m, hm, rfl⟩ := valid_int_is_nat perf ⟨hv.1, hv.2.1⟩
    obtain ⟨e, he, rfl⟩ := valid_event_is_nat event ⟨hv.2.2.1, hv.2.2.2⟩
    rw [start_valid s m e hm he]
  · rw [hinv hn]
    exact ⟨rfl, rfl, rfl, rfl⟩

/-- Instance of C1 at a negative monitor index. -/
theorem k1b_perf_start_status_witness :
    ¬ (0 ≤ (-1 : Int) ∧ (-1 : Int) < 2 ∧ 0 ≤ (5 : Int) ∧ (5 : Int) < 14) ∧
    (k1b_perf_start (-1) 5 exampleMachine).1 = -EINVAL ∧
    (k1b_perf_start (-1) 5 exampleMachine).2 = exampleMachine :=
  ⟨by decide,
   ((k1b_perf_start_status (-1) 5 exampleMachine).2 (by decide)).1,
   ((k1b_perf_start_status (-1) 5 exampleMachine).2 (by decide)).2.2.2⟩

/-- C2: for a 32-bit control word `w`, a monitor `m` in {0,1} and an event `e < 14`,
`k1b_perf_start(m, e)` returns 0 and leaves the control register equal to `w` with the
nibbles of slots `2m` and `2m+1` cleared, OR `e << 8m`, OR `e << (8m+4)`: both nibbles
of the monitor hold `e` and every bit of `w` outside them is unchanged. -/
theorem k1b_perf_start_effect (s : Machine) (m e : Nat)
    (hw : s.pmc < 2 ^ 32) (hm : m < 2) (he : e < 14) :
    (k1b_perf_start m e s).1 = 0 ∧
    (k1b_perf_start m e s).2.pmc =
      clearMonitor s.pmc m ||| e <<< (8 * m) ||| e <<< (8 * m + 4) ∧
    slotNibble (k1b_perf_start m e s).2.pmc (2 * m) = e ∧
    slotNibble (k1b_perf_start m e s).2.pmc (2 * m + 1) = e ∧
    (∀ i, ¬ (8 * m ≤ i ∧ i < 8 * m + 8) →
      (k1b_perf_start m e s).2.pmc.testBit i = s.pmc.testBit i) := by
  rw [start_valid s m e hm he]
  refine ⟨rfl, ?_, ?_, ?_, ?_⟩
  · rw [clearMonitor_eq _ m hm, Nat.or_assoc]
  · exact (slotNibble_rmw s.pmc e m (by omega)).1
  · exact (slotNibble_rmw s.pmc e m (by omega)).2
  · intro i hi
    exact testBit_rmw_outside s.pmc _ (8 * m) i hw (fun j hj => pairStart_bits e _ j he hj) hi

/-- Instance of C2: monitor 1, event 5, control word `0xABCD1234`. -/
theorem k1b_perf_start_effect_witness :
    exampleMachine.pmc < 2 ^ 32 ∧ (1 : Nat) < 2 ∧ (5 : Nat) < 14 ∧
    (k1b_perf_start (1 : Nat) (5 : Nat) exampleMachine).1 = 0 ∧
    (k1b_perf_start (1 : Nat) (5 : Nat) exampleMachine).2.pmc =
      clearMonitor exampleMachine.pmc 1 ||| 5 <<< (8 * 1) ||| 5 <<< (8 * 1 + 4) :=
  ⟨by decide, by decide, by decide,
   (k1b_perf_start_effect exampleMachine 1 5 (by decide) (by decide) (by decide)).1,
   (k1b_perf_start_effect exampleMachine 1 5 (by decide) (by decide) (by decide)).2.1⟩

/-- C3: for a 32-bit control word `w` and a monitor `m` in {0,1}, `k1b_perf_stop(m)`
returns 0 and leaves the control register equal to `w` with the nibbles of slots `2m`
and `2m+1` cleared, OR `0xe << 8m`, OR `0xe << (8m+4)`: both nibbles of the monitor hold
the stop sentinel `0xe` and every bit of `w` outside them is unchanged. -/
theorem k1b_perf_stop_effect (s : Machine) (m : Nat) (hw : s.pmc < 2 ^ 32) (hm : m < 2) :
    (k1b_perf_stop m s).1 = 0 ∧
    (k1b_perf_stop m s).2.pmc =
      clearMonitor s.pmc m ||| 0xe <<< (8 * m) ||| 0xe <<< (8 * m + 4) ∧
    slotNibble (k1b_perf_stop m s).2.pmc (2 * m) = 0xe ∧
    slotNibble (k1b_perf_stop m s).2.pmc (2 * m + 1) = 0xe ∧
    (∀ i, ¬ (8 * m ≤ i ∧ i < 8 * m + 8) →
      (k1b_perf_stop m s).2.pmc.testBit i = s.pmc.testBit i) := by
  rw [stop_valid s m hm]
  refine ⟨rfl, ?_, ?_, ?_, ?_⟩
  · rw [clearMonitor_eq _ m hm, Nat.or_assoc]
  · exact (slotNibble_rmw s.pmc 14 m (by omega)).1
  · exact (slotNibble_rmw s.pmc 14 m (by omega)).2
  · intro i hi
    exact testBit_rmw_outside s.pmc _ (8 * m) i hw (fun j hj => pairStop_bits _ j hj) hi

/-- Instance of C3: monitor 0, control word `0xABCD1234`. -/
theorem k1b_perf_stop_effect_witness :
    exampleMachine.pmc < 2 ^ 32 ∧ (0 : Nat) < 2 ∧
    (k1b_perf_stop (0 : Nat) exampleMachine).1 = 0 ∧
    (k1b_perf_stop (0 : Nat) exampleMachine).2.pmc = 0xABCD12EE :=
  ⟨by decide, by decide,
   (k1b_perf_stop_effect exampleMachine 0 (by decide) (by decide)).1,
   (k1b_perf_stop_effect exampleMachine 0 (by decide) (by decide)).2.1.trans (by decide)⟩

/-- C4: `k1b_perf_stop(perf)` returns 0 exactly when `0 <= perf < 2`; for every other
`int` it returns `-EINVAL`, makes no access to the control register and leaves the
control register, and the whole machine, as it was. -/
theorem k1b_perf_stop_status (perf : Int) (s : Machine) :
    ((k1b_perf_stop perf s).1 = 0 ↔ (0 ≤ perf ∧ perf < 2)) ∧
    (¬ (0 ≤ perf ∧ perf < 2) →
        (k1b_perf_stop perf s).1 = -EINVAL ∧
        writesOf (k1b_perf_stop perf s).2.trace = writesOf s.trace ∧
        (k1b_perf_stop perf s).2.pmc = s.pmc ∧
        (k1b_perf_stop perf s).2 = s) := by
  refine ⟨⟨fun h0 => ?_, fun hv => ?_⟩, fun hn => ?_⟩
  · by_contra hn
    rw [stop_invalid s perf hn] at h0
    simp [EINVAL] at h0
  · obtain ⟨m, hm, rfl⟩ := valid_int_is_nat perf hv
    rw [stop_valid s m hm]
  · rw [stop_invalid s perf hn]
    exact ⟨rfl, rfl, rfl, rfl⟩

/-- Instance of C4 at the first index past the monitors. -/
theorem k1b_perf_stop_status_witness :
    ¬ (0 ≤ (2 : Int) ∧ (2 : Int) < 2) ∧
    (k1b_perf_stop 2 exampleMachine).1 = -EINVAL ∧
    (k1b_perf_stop 2 exampleMachine).2 = exampleMachine :=
  ⟨by decide,
   ((k1b_perf_stop_status 2 exampleMachine).2 (by decide)).1,
   ((k1b_perf_stop_status 2 exampleMachine).2 (by decide)).2.2.2⟩

/-! ## Reading a monitor -/

/-- Gluing a 32-bit high half over a 32-bit low half. -/
theorem glue64 (hi lo : Nat) (hhi : hi < 2 ^ 32) (hlo : lo < 2 ^ 32) :
    (((hi % 2 ^ 32) <<< 32) % 2 ^ 64) ||| (lo % 2 ^ 32) = hi * 2 ^ 32 + lo := by
  have h1 : hi <<< 32 < 2 ^ 64 := by rw [Nat.shiftLeft_eq]; omega
  rw [Nat.mod_eq_of_lt hhi, Nat.mod_eq_of_lt hlo, Nat.mod_eq_of_lt h1, Nat.shiftLeft_eq,
    Nat.mul_comm hi, Nat.mul_add_lt_is_or hlo]

/-- C5: for a monitor `m` in {0,1} and any 32-bit contents of `pm0 .. pm3`,
`k1b_perf_read(m)` returns `(pm[2m+1] << 32) | pm[2m] = pm[2m+1] * 2^32 + pm[2m]`: the
odd slot is the high half and the even slot the low half, the top 32 bits of the result
are `pm[2m+1]` and the bottom 32 bits `pm[2m]`, and nothing of the high half is lost. -/
theorem k1b_perf_read_value (s : Machine) (m : Nat) (hs : s.WF) (hm : m < 2) :
    k1b_perf_read m s = (s.pm (2 * m + 1) <<< 32) ||| s.pm (2 * m) ∧
    k1b_perf_read m s = s.pm (2 * m + 1) * 2 ^ 32 + s.pm (2 * m) ∧
    k1b_perf_read m s / 2 ^ 32 = s.pm (2 * m + 1) ∧
    k1b_perf_read m s % 2 ^ 32 = s.pm (2 * m) ∧
    k1b_perf_read m s < 2 ^ 64 := by
  obtain ⟨-, h0, h1, h2, h3⟩ := hs
  have key : ∀ hi lo : Nat, hi < 2 ^ 32 → lo < 2 ^ 32 →
      hi * 2 ^ 32 + lo = (hi <<< 32) ||| lo ∧
      (hi * 2 ^ 32 + lo) / 2 ^ 32 = hi ∧ (hi * 2 ^ 32 + lo) % 2 ^ 32 = lo ∧
      hi * 2 ^ 32 + lo < 2 ^ 64 := by
    intro hi lo hhi hlo
    refine ⟨?_, by omega, by omega, by omega⟩
    rw [Nat.shiftLeft_eq, Nat.mul_comm hi, Nat.mul_add_lt_is_or hlo]
  have hm' : m = 0 ∨ m = 1 := by omega
  rcases hm' with rfl | rfl
  · have hr : k1b_perf_read ((0 : Nat) : Int) s = s.pm1 * 2 ^ 32 + s.pm0 := by
      simp only [k1b_perf_read, K1B_PERF_PM_0_1, Nat.cast_zero, if_true]
      exact glue64 _ _ h1 h0
    obtain ⟨k1, k2, k3, k4⟩ := key s.pm1 s.pm0 h1 h0
    rw [hr]
    exact ⟨k1, rfl, k2, k3, k4⟩
  · have hr : k1b_perf_read ((1 : Nat) : Int) s = s.pm3 * 2 ^ 32 + s.pm2 := by
      simp only [k1b_perf_read, K1B_PERF_PM_0_1, K1B_PERF_PM_2_3, Nat.cast_one, one_ne_zero,
        if_false, if_true]
      exact glue64 _ _ h3 h2
    obtain ⟨k1, k2, k3, k4⟩ := key s.pm3 s.pm2 h3 h2
    rw [hr]
    exact ⟨k1, rfl, k2, k3, k4⟩

/-- Instance of C5: monitor 1 with `pm2 = 0xFFFFFFFF` and `pm3 = 0xFFFFFFFE`. -/
theorem k1b_perf_read_value_witness :
    exampleMachine.WF ∧ (1 : Nat) < 2 ∧
    k1b_perf_read (1 : Nat) exampleMachine = 0xFFFFFFFE * 2 ^ 32 + 0xFFFFFFFF :=
  ⟨by decide, by decide,
   (k1b_perf_read_value exampleMachine 1 (by decide) (by decide)).2.1⟩

/-- C6: for every `int perf` outside {0,1} and every machine state,
`k1b_perf_read(perf)` returns the all-ones 64-bit value `(uint64_t) -1`. -/
theorem k1b_perf_read_invalid (perf : Int) (s : Machine) (h : perf < 0 ∨ 2 ≤ perf) :
    k1b_perf_read perf s = 0xFFFFFFFFFFFFFFFF := by
  have h0 : perf ≠ K1B_PERF_PM_0_1 := by unfold K1B_PERF_PM_0_1; omega
  have h1 : perf ≠ K1B_PERF_PM_2_3 := by unfold K1B_PERF_PM_2_3; omega
  simp only [k1b_perf_read, h0, h1, if_false]
  decide

/-- Instance of C6 at `perf = -3`. -/
theorem k1b_perf_read_invalid_witness :
    ((-3 : Int) < 0 ∨ 2 ≤ (-3 : Int)) ∧
    k1b_perf_read (-3) exampleMachine = 0xFFFFFFFFFFFFFFFF :=
  ⟨by decide, k1b_perf_read_invalid (-3) exampleMachine (by decide)⟩

/-! ## Setup -/

theorem writesOf_append (t u : List Access) : writesOf (t ++ u) = writesOf t ++ writesOf u := by
  induction t with
  | nil => rfl
  | cons a t ih =>
    cases a with
    | pmcRead => simpa [writesOf] using ih
    | pmcWrite v => simp [writesOf, ih]

theorem setup_word_stop :
    ((K1B_PERF_STOP 0 ||| K1B_PERF_STOP 1 ||| K1B_PERF_STOP 2 ||| K1B_PERF_STOP 3) % 2 ^ 32
      ||| (K1B_PERF_SMD ||| K1B_PERF_SMP ||| K1B_PERF_DMC ||| K1B_PERF_CHAIN_0_1
            ||| K1B_PERF_CHAIN_2_3)) % 2 ^ 32 = 0x001FEEEE := by
  decide

theorem setup_word_reset0 :
    0x001FEEEE &&& not32 (15 <<< (8 * 0) ||| 15 <<< (8 * 0 + 4))
      ||| (15 <<< (8 * 0) ||| 15 <<< (8 * 0 + 4)) = 0x001FEEFF := by
  decide

theorem setup_word_reset1 :
    0x001FEEFF &&& not32 (15 <<< (8 * 1) ||| 15 <<< (8 * 1 + 4))
      ||| (15 <<< (8 * 1) ||| 15 <<< (8 * 1 + 4)) = 0x001FFFFF := by
  decide

/-- Setup in closed form: the final machine does not depend on the prior control word. -/
theorem setup_closed (s : Machine) :
    k1b_perf_setup s =
      { s with
        pmc := 0x001FFFFF,
        trace := s.trace ++ [Access.pmcWrite 0x001FEEEE, Access.pmcRead,
          Access.pmcWrite 0x001FEEFF, Access.pmcRead, Access.pmcWrite 0x001FFFFF] } := by
  have r0 := fun t : Machine => reset_pmc t 0 (by decide)
  have r1 := fun t : Machine => reset_pmc t 1 (by decide)
  simp only [Nat.cast_zero, Nat.cast_one] at r0 r1
  simp only [k1b_perf_setup, K1B_PERF_PM_0_1, K1B_PERF_PM_2_3, r0, r1, k1b_pmc_write,
    setup_word_stop, setup_word_reset0, setup_word_reset1, List.append_assoc,
    List.singleton_append, List.cons_append, List.nil_append]

/-- C7: whatever the control register held, `k1b_perf_setup()` writes it exactly three
times: first `0x001FEEEE` (stop sentinel `0xe` in the four slot nibbles, flag bits 16..20
set, every other bit clear), then the reset of monitor 0, `0x001FEEFF`, then the reset of
monitor 1, `0x001FFFFF`. The three words are constants: none depends on the prior value. -/
theorem k1b_perf_setup_writes (s : Machine) :
    writesOf (k1b_perf_setup s).trace =
      writesOf s.trace ++ [0x001FEEEE, 0x001FEEFF, 0x001FFFFF] ∧
    (k1b_perf_setup s).trace =
      s.trace ++ [Access.pmcWrite 0x001FEEEE, Access.pmcRead, Access.pmcWrite 0x001FEEFF,
        Access.pmcRead, Access.pmcWrite 0x001FFFFF] ∧
    (0x001FEEEE : Nat) =
      K1B_PERF_STOP 0 ||| K1B_PERF_STOP 1 ||| K1B_PERF_STOP 2 ||| K1B_PERF_STOP 3
        ||| (K1B_PERF_CHAIN_0_1 ||| K1B_PERF_CHAIN_2_3 ||| K1B_PERF_DMC ||| K1B_PERF_SMP
              ||| K1B_PERF_SMD) ∧
    (slotNibble 0x001FEEEE 0 = 0xe ∧ slotNibble 0x001FEEEE 1 = 0xe ∧
      slotNibble 0x001FEEEE 2 = 0xe ∧ slotNibble 0x001FEEEE 3 = 0xe) ∧
    (0x001FEEEE : Nat) >>> 16 = 0x1f ∧
    (0x001FEEFF : Nat) = (k1b_perf_reset 0 { s with pmc := 0x001FEEEE }).1 ∧
    (0x001FFFFF : Nat) = (k1b_perf_reset 1 { s with pmc := 0x001FEEFF }).1 := by
  have r0 := reset_pmc { s with pmc := 0x001FEEEE } 0 (by decide)
  have r1 := reset_pmc { s with pmc := 0x001FEEFF } 1 (by decide)
  simp only [Nat.cast_zero, Nat.cast_one] at r0 r1
  rw [setup_closed, r0, r1]
  refine ⟨?_, rfl, by decide, by decide, by decide, setup_word_reset0.symm,
    setup_word_reset1.symm⟩
  rw [writesOf_append]
  rfl

/-- C8 fails as stated: after setup on the all-zero machine each of the four command
nibbles holds `0xf`, the reset sentinel, and none holds the stop sentinel `0xe`. -/
theorem k1b_perf_setup_nibbles_not_stop :
    (k1b_perf_setup zeroMachine).pmc = 0x001FFFFF ∧
    slotNibble (k1b_perf_setup zeroMachine).pmc 0 ≠ 0xe ∧
    slotNibble (k1b_perf_setup zeroMachine).pmc 1 ≠ 0xe ∧
    slotNibble (k1b_perf_setup zeroMachine).pmc 2 ≠ 0xe ∧
    slotNibble (k1b_perf_setup zeroMachine).pmc 3 ≠ 0xe := by
  decide

/-- C8, amended: after `k1b_perf_setup()`, whatever the control register held, the command
nibble of each of the four slots holds the reset sentinel `0xf` (the encoding
`K1B_PERF_RESET` puts there), which is neither the stop sentinel `0xe` nor the start
encoding of an event below 14. -/
theorem k1b_perf_setup_nibbles_reset (s : Machine) (r : Nat) (hr : r < 4) :
    slotNibble (k1b_perf_setup s).pmc r = 0xf ∧
    slotNibble (k1b_perf_setup s).pmc r = slotNibble (K1B_PERF_RESET r) r ∧
    slotNibble (k1b_perf_setup s).pmc r ≠ slotNibble (K1B_PERF_STOP r) r ∧
    (∀ e, e < 14 → slotNibble (k1b_perf_setup s).pmc r ≠ slotNibble (K1B_PERF_START r e) r) := by
  have hp : (k1b_perf_setup s).pmc = 0x001FFFFF := by rw [setup_closed]
  rw [hp]
  interval_cases r
  all_goals
    refine ⟨by decide, by decide, by decide, ?_⟩
    intro e he
    interval_cases e <;> decide

/-- Instance of the amended C8: slot 2 after setup on the example machine. -/
theorem k1b_perf_setup_nibbles_reset_witness :
    (2 : Nat) < 4 ∧ slotNibble (k1b_perf_setup exampleMachine).pmc 2 = 0xf :=
  ⟨by decide, (k1b_perf_setup_nibbles_reset exampleMachine 2 (by decide)).1⟩

/-- C9: setup is idempotent on the control register: a second setup leaves the value of
the first, and a setup after any sequence of start and stop calls (with any arguments)
re-establishes that same value. -/
theorem k1b_perf_setup_idempotent (s : Machine) (cs : List Call) :
    (k1b_perf_setup (k1b_perf_setup s)).pmc = (k1b_perf_setup s).pmc ∧
    (k1b_perf_setup (runCalls cs (k1b_perf_setup s))).pmc = (k1b_perf_setup s).pmc := by
  have h : ∀ t : Machine, (k1b_perf_setup t).pmc = 0x001FFFFF := fun t => by
    rw [setup_closed]
  exact ⟨by rw [h, h], by rw [h, h]⟩

/-! ## Idempotence of stop -/

/-- A 32-bit word whose two nibbles of monitor `m` already hold `0xe` is a fixed point of
the masked write of the stop sentinel. -/
theorem stop_fixed (w m : Nat) (hw : w < 2 ^ 32)
    (hX : slotNibble w (2 * m) = 0xe) (hY : slotNibble w (2 * m + 1) = 0xe) :
    w &&& not32 (15 <<< (8 * m) ||| 15 <<< (8 * m + 4))
      ||| (14 <<< (8 * m) ||| 14 <<< (8 * m + 4)) = w := by
  apply Nat.eq_of_testBit_eq
  intro i
  by_cases hi : 8 * m ≤ i ∧ i < 8 * m + 8
  · rw [testBit_rmw, testBit_pairStop]
    by_cases hlo : i < 8 * m + 4
    · have hb := congrArg (fun x => Nat.testBit x (i - 8 * m)) hX
      simp only [slotNibble_testBit] at hb
      have h1 : 4 * (2 * m) + (i - 8 * m) = i := by omega
      have h2 : i - 8 * m < 4 := by omega
      have h14 : (0xe : Nat) = 14 := rfl
      rw [h1, h14, testBit_fourteen] at hb
      simp only [h2, decide_True, Bool.and_true] at hb
      have hi' : decide (8 * m ≤ i ∧ i < 8 * m + 8) = true := decide_eq_true hi
      rw [hb, hi']
      simp only [Bool.not_true, Bool.and_false, Bool.false_or]
      rw [decide_eq_decide]
      omega
    · have hb := congrArg (fun x => Nat.testBit x (i - (8 * m + 4))) hY
      simp only [slotNibble_testBit] at hb
      have h1 : 4 * (2 * m + 1) + (i - (8 * m + 4)) = i := by omega
      have h2 : i - (8 * m + 4) < 4 := by omega
      have h14 : (0xe : Nat) = 14 := rfl
      rw [h1, h14, testBit_fourteen] at hb
      simp only [h2, decide_True, Bool.and_true] at hb
      have hi' : decide (8 * m ≤ i ∧ i < 8 * m + 8) = true := decide_eq_true hi
      rw [hb, hi']
      simp only [Bool.not_true, Bool.and_false, Bool.false_or]
      rw [decide_eq_decide]
      omega
  · exact testBit_rmw_outside w _ (8 * m) i hw (fun j hj => pairStop_bits _ j hj) hi

/-- C10: `k1b_perf_stop` is idempotent: for every machine state and every `int perf`, a
second `stop(perf)` returns the status of the first and leaves the control register as
the first left it; and a stop on a monitor whose two nibbles already hold the stop
sentinel changes no bit of a 32-bit control register. -/
theorem k1b_perf_stop_idempotent (perf : Int) (s : Machine) :
    (k1b_perf_stop perf (k1b_perf_stop perf s).2).2.pmc = (k1b_perf_stop perf s).2.pmc ∧
    (k1b_perf_stop perf (k1b_perf_stop perf s).2).1 = (k1b_perf_stop perf s).1 ∧
    (∀ m : Nat, perf = (m : Int) → m < 2 → s.pmc < 2 ^ 32 →
      slotNibble s.pmc (2 * m) = 0xe → slotNibble s.pmc (2 * m + 1) = 0xe →
      (k1b_perf_stop perf s).2.pmc = s.pmc) := by
  refine ⟨?_, ?_, ?_⟩
  · by_cases hv : 0 ≤ perf ∧ perf < 2
    · obtain ⟨m, hm, rfl⟩ := valid_int_is_nat perf hv
      rw [stop_valid s m hm, stop_valid _ m hm]
      exact rmw_rmw _ _ _ _ (under_mask _ _ (fun j hj => pairStop_bits _ j hj))
    · rw [stop_invalid s perf hv, stop_invalid s perf hv]
  · by_cases hv : 0 ≤ perf ∧ perf < 2
    · obtain ⟨m, hm, rfl⟩ := valid_int_is_nat perf hv
      rw [stop_valid s m hm, stop_valid _ m hm]
    · rw [stop_invalid s perf hv, stop_invalid s perf hv]
  · intro m hp hm hw hX hY
    subst hp
    rw [stop_valid s m hm]
    exact stop_fixed s.pmc m hw hX hY

/-- Instance of C10: monitor 1 of a machine whose four nibbles hold the stop sentinel. -/
theorem k1b_perf_stop_idempotent_witness :
    (1 : Int) = ((1 : Nat) : Int) ∧ (1 : Nat) < 2 ∧ stoppedMachine.pmc < 2 ^ 32 ∧
    slotNibble stoppedMachine.pmc (2 * 1) = 0xe ∧
    slotNibble stoppedMachine.pmc (2 * 1 + 1) = 0xe ∧
    (k1b_perf_stop 1 stoppedMachine).2.pmc = stoppedMachine.pmc :=
  ⟨rfl, by decide, by decide, by decide, by decide,
   (k1b_perf_stop_idempotent 1 stoppedMachine).2.2 1 rfl (by decide) (by decide)
     (by decide) (by decide)⟩

/-! ## Frame of the masked writes -/

theorem pairMask_bits (k j : Nat)
    (h : (15 <<< k ||| 15 <<< (k + 4)).testBit j = true) : k ≤ j ∧ j < k + 8 := by
  rw [testBit_pairMask] at h
  simpa using h

theorem agreeOutside_rmw (w V m : Nat) (hw : w < 2 ^ 32)
    (hV : ∀ j, V.testBit j = true → 8 * m ≤ j ∧ j < 8 * m + 8) :
    agreeOutside m w (w &&& not32 (15 <<< (8 * m) ||| 15 <<< (8 * m + 4)) ||| V) :=
  fun i hi => testBit_rmw_outside w V (8 * m) i hw hV hi

/-- Agreement outside a monitor keeps the flag bits and everything above them. -/
theorem agreeOutside_high (m w v : Nat) (hm : m < 2) (h : agreeOutside m w v) :
    v >>> 16 = w >>> 16 := by
  apply Nat.eq_of_testBit_eq
  intro j
  rw [Nat.testBit_shiftRight, Nat.testBit_shiftRight]
  exact h (16 + j) (by omega)

/-- Agreement outside a monitor keeps the command nibble of every other slot. -/
theorem agreeOutside_nibble (m w v r : Nat) (h : agreeOutside m w v)
    (hX : r ≠ 2 * m) (hY : r ≠ 2 * m + 1) : slotNibble v r = slotNibble w r := by
  apply Nat.eq_of_testBit_eq
  intro j
  rw [slotNibble_testBit, slotNibble_testBit]
  by_cases hj : j < 4
  · rw [h (4 * r + j) (by omega)]
  · simp [hj]

theorem newAccesses_append (s t : Machine) (l : List Access) (h : t.trace = s.trace ++ l) :
    newAccesses s t = l := by
  unfold newAccesses
  rw [h, List.drop_left]

/-- C11: every control-register write made by `k1b_perf_start`, `k1b_perf_stop` and the
reset helper on monitor `m` (the reset write inside start included) agrees with the word
read at the beginning of the operation on every bit outside the nibbles of slots `2m`
and `2m+1`: bits 16 and above, hence the flags 16..20 and bits 21..31, and the two
nibbles of the other monitor are preserved. Start makes two such writes, stop and reset
one each. -/
theorem k1b_perf_writes_frame (s : Machine) (m e : Nat)
    (hw : s.pmc < 2 ^ 32) (hm : m < 2) (he : e < 14) :
    ((writesOf (newAccesses s (k1b_perf_start m e s).2)).length = 2 ∧
      (writesOf (newAccesses s (k1b_perf_stop m s).2)).length = 1 ∧
      (writesOf (newAccesses s (k1b_perf_reset m s).2)).length = 1) ∧
    (∀ v, (v ∈ writesOf (newAccesses s (k1b_perf_start m e s).2) ∨
           v ∈ writesOf (newAccesses s (k1b_perf_stop m s).2) ∨
           v ∈ writesOf (newAccesses s (k1b_perf_reset m s).2)) →
      agreeOutside m s.pmc v ∧
      v >>> 16 = s.pmc >>> 16 ∧
      slotNibble v (2 * (1 - m)) = slotNibble s.pmc (2 * (1 - m)) ∧
      slotNibble v (2 * (1 - m) + 1) = slotNibble s.pmc (2 * (1 - m) + 1)) := by
  have hstart := newAccesses_append s (k1b_perf_start m e s).2 _
    (by rw [start_valid s m e hm he, List.append_assoc, List.append_assoc])
  have hstop := newAccesses_append s (k1b_perf_stop m s).2 _
    (by rw [stop_valid s m hm, List.append_assoc])
  have hreset := newAccesses_append s (k1b_perf_reset m s).2 _
    (by rw [reset_pmc s m hm, List.append_assoc])
  rw [hstart, hstop, hreset]
  have fR := agreeOutside_rmw s.pmc (15 <<< (8 * m) ||| 15 <<< (8 * m + 4)) m hw
    (fun j hj => pairMask_bits _ j hj)
  have fS := agreeOutside_rmw s.pmc (14 <<< (8 * m) ||| 14 <<< (8 * m + 4)) m hw
    (fun j hj => pairStop_bits _ j hj)
  have fE := agreeOutside_rmw s.pmc (e <<< (8 * m) ||| e <<< (8 * m + 4)) m hw
    (fun j hj => pairStart_bits e _ j he hj)
  have all : ∀ v, agreeOutside m s.pmc v →
      agreeOutside m s.pmc v ∧ v >>> 16 = s.pmc >>> 16 ∧
      slotNibble v (2 * (1 - m)) = slotNibble s.pmc (2 * (1 - m)) ∧
      slotNibble v (2 * (1 - m) + 1) = slotNibble s.pmc (2 * (1 - m) + 1) := fun v hv =>
    ⟨hv, agreeOutside_high m _ v hm hv,
     agreeOutside_nibble m _ v _ hv (by omega) (by omega),
     agreeOutside_nibble m _ v _ hv (by omega) (by omega)⟩
  refine ⟨⟨rfl, rfl, rfl⟩, ?_⟩
  intro v hv
  simp only [List.singleton_append, List.cons_append, List.nil_append, writesOf,
    List.mem_cons, List.mem_singleton, List.not_mem_nil, or_false] at hv
  rcases hv with (rfl | rfl) | rfl | rfl
  · exact all _ fR
  · exact all _ fE
  · exact all _ fS
  · exact all _ fR

/-- Instance of C11: the two writes of `start(1, 5)` on the example machine keep bits 16
and above. -/
theorem k1b_perf_writes_frame_witness :
    exampleMachine.pmc < 2 ^ 32 ∧ (1 : Nat) < 2 ∧ (5 : Nat) < 14 ∧
    (writesOf (newAccesses exampleMachine
      (k1b_perf_start (1 : Nat) (5 : Nat) exampleMachine).2)).length = 2 ∧
    (0xABCD5534 : Nat) >>> 16 = exampleMachine.pmc >>> 16 :=
  ⟨by decide, by decide, by decide,
   (k1b_perf_writes_frame exampleMachine 1 5 (by decide) (by decide) (by decide)).1.1,
   ((k1b_perf_writes_frame exampleMachine 1 5 (by decide) (by decide) (by decide)).2
      0xABCD5534 (Or.inl (by decide))).2.1⟩

/-! ## The reset helper and the access sequence of start -/

/-- C12, the code at a concrete input: on a register holding `0x001FEEEE` the reset of
monitor 0 leaves `0x001FEEFF` in the register, with `0xf` in the nibbles of slots 0 and
1, and returns that same new word `0x001FEEFF`, which is not the word `0x001FEEEE` the
register held before the write. -/
theorem k1b_perf_reset_returns_written_word :
    (k1b_perf_reset 0 stoppedMachine).2.pmc = 0x001FEEFF ∧
    slotNibble (k1b_perf_reset 0 stoppedMachine).2.pmc 0 = 0xf ∧
    slotNibble (k1b_perf_reset 0 stoppedMachine).2.pmc 1 = 0xf ∧
    (k1b_perf_reset 0 stoppedMachine).1 = 0x001FEEFF ∧
    (k1b_perf_reset 0 stoppedMachine).1 ≠ stoppedMachine.pmc := by
  decide

/-- The reset helper returns the word it has just written, for every monitor and state. -/
theorem reset_returns_new (s : Machine) (m : Nat) (hm : m < 2) :
    (k1b_perf_reset m s).1 = (k1b_perf_reset m s).2.pmc := by
  rw [reset_pmc s m hm]

/-- C13: a successful `k1b_perf_start(m, e)` reads the control register exactly once and
then writes it exactly twice: first the initial word with the nibbles of slots `2m` and
`2m+1` replaced by the reset sentinel `0xf`, then the initial word with those nibbles
replaced by `e`. The second word is the masked update of the word the reset helper
returned; the register is not read again. -/
theorem k1b_perf_start_accesses (s : Machine) (m e : Nat) (hm : m < 2) (he : e < 14) :
    (k1b_perf_start m e s).1 = 0 ∧
    newAccesses s (k1b_perf_start m e s).2 =
      [Access.pmcRead,
       Access.pmcWrite (clearMonitor s.pmc m ||| 0xf <<< (8 * m) ||| 0xf <<< (8 * m + 4)),
       Access.pmcWrite (clearMonitor s.pmc m ||| e <<< (8 * m) ||| e <<< (8 * m + 4))] ∧
    readsOf (newAccesses s (k1b_perf_start m e s).2) = 1 ∧
    writesOf (newAccesses s (k1b_perf_start m e s).2) =
      [clearMonitor s.pmc m ||| 0xf <<< (8 * m) ||| 0xf <<< (8 * m + 4),
       clearMonitor s.pmc m ||| e <<< (8 * m) ||| e <<< (8 * m + 4)] ∧
    (slotNibble (clearMonitor s.pmc m ||| 0xf <<< (8 * m) ||| 0xf <<< (8 * m + 4)) (2 * m)
        = 0xf ∧
      slotNibble (clearMonitor s.pmc m ||| 0xf <<< (8 * m) ||| 0xf <<< (8 * m + 4))
        (2 * m + 1) = 0xf) ∧
    clearMonitor s.pmc m ||| e <<< (8 * m) ||| e <<< (8 * m + 4) =
      ((k1b_perf_reset m s).1
          &&& not32 (K1B_PERF_MASK (2 * m) ||| K1B_PERF_MASK (2 * m + 1))
        ||| (K1B_PERF_START (2 * m) e ||| K1B_PERF_START (2 * m + 1) e)) % 2 ^ 32 := by
  have hacc := newAccesses_append s (k1b_perf_start m e s).2 _
    (by rw [start_valid s m e hm he, List.append_assoc, List.append_assoc])
  have hX : (2 * m) <<< 2 = 8 * m := shiftX m
  have hY : (2 * m + 1) <<< 2 = 8 * m + 4 := by rw [Nat.shiftLeft_eq]; omega
  have hR : (15 <<< (8 * m) ||| 15 <<< (8 * m + 4))
      &&& not32 (15 <<< (8 * m) ||| 15 <<< (8 * m + 4)) = 0 :=
    under_mask _ _ (fun j hj => pairMask_bits _ j hj)
  have h15 : (0xf : Nat) = 15 := rfl
  rw [hacc, clearMonitor_eq _ m hm, h15, Nat.or_assoc, Nat.or_assoc]
  refine ⟨by rw [start_valid s m e hm he], rfl, rfl, rfl,
    ⟨(slotNibble_rmw s.pmc 15 m (by omega)).1, (slotNibble_rmw s.pmc 15 m (by omega)).2⟩, ?_⟩
  rw [reset_pmc s m hm]
  simp only [K1B_PERF_MASK, K1B_PERF_START, hX, hY]
  rw [rmw_rmw _ _ _ _ hR, rmw_mod _ _ _ (pairStart_lt e _ he (by omega))]

/-- Instance of C13: `start(0, 7)` on the example machine. -/
theorem k1b_perf_start_accesses_witness :
    (0 : Nat) < 2 ∧ (7 : Nat) < 14 ∧
    newAccesses exampleMachine (k1b_perf_start (0 : Nat) (7 : Nat) exampleMachine).2 =
      [Access.pmcRead, Access.pmcWrite 0xABCD12FF, Access.pmcWrite 0xABCD1277] :=
  ⟨by decide, by decide,
   (k1b_perf_start_accesses exampleMachine 0 7 (by decide) (by decide)).2.1.trans
     (by decide)⟩

/-! ## Layout of the control register -/

/-- C14: the layout of the control register is a partition. The masks of slots 0..3 are
`0xf << 4r`, pairwise disjoint, and cover exactly bits 0..15; they are disjoint from
the five flags, which are the distinct single bits 16 (`CHAIN_0_1`), 17 (`CHAIN_2_3`),
18 (`DMC`), 19 (`SMP`) and 20 (`SMD`); the slots of monitor `m` are `2m` and `2m+1`, so
its nibbles are the byte `0xff << 8m`. -/
theorem k1b_perf_layout_partition :
    (∀ r, r < 4 → K1B_PERF_MASK r = 0xf <<< (4 * r)) ∧
    (∀ r t, r < 4 → t < 4 → r ≠ t → K1B_PERF_MASK r &&& K1B_PERF_MASK t = 0) ∧
    K1B_PERF_MASK 0 ||| K1B_PERF_MASK 1 ||| K1B_PERF_MASK 2 ||| K1B_PERF_MASK 3 = 0x0000FFFF ∧
    (∀ r, r < 4 →
      K1B_PERF_MASK r &&& (K1B_PERF_CHAIN_0_1 ||| K1B_PERF_CHAIN_2_3 ||| K1B_PERF_DMC
        ||| K1B_PERF_SMP ||| K1B_PERF_SMD) = 0) ∧
    (K1B_PERF_CHAIN_0_1 = 2 ^ 16 ∧ K1B_PERF_CHAIN_2_3 = 2 ^ 17 ∧ K1B_PERF_DMC = 2 ^ 18 ∧
      K1B_PERF_SMP = 2 ^ 19 ∧ K1B_PERF_SMD = 2 ^ 20) ∧
    (∀ m : Nat, m < 2 →
      toU32 ((m : Int) * 2) = 2 * m ∧ (toU32 ((m : Int) * 2) + 1) % 2 ^ 32 = 2 * m + 1 ∧
      K1B_PERF_MASK (2 * m) ||| K1B_PERF_MASK (2 * m + 1) = 0xff <<< (8 * m)) := by
  refine ⟨?_, ?_, by decide, ?_, by decide, ?_⟩
  · intro r hr
    interval_cases r <;> decide
  · intro r t hr ht hne
    interval_cases r <;> interval_cases t <;> first | exact absurd rfl hne | decide
  · intro r hr
    interval_cases r <;> decide
  · intro m hm
    interval_cases m <;> decide

/-- Instance of C14: the masks of slots 1 and 2 are disjoint. -/
theorem k1b_perf_layout_partition_witness :
    (1 : Nat) < 4 ∧ (2 : Nat) < 4 ∧ (1 : Nat) ≠ 2 ∧
    K1B_PERF_MASK 1 &&& K1B_PERF_MASK 2 = 0 :=
  ⟨by decide, by decide, by decide,
   k1b_perf_layout_partition.2.1 1 2 (by decide) (by decide) (by decide)⟩

/-- C15: for a slot `r` in 0..3 and an event `e` that `k1b_perf_start` accepts,
`K1B_PERF_START(r, e) = e << 4r` has no bit outside the nibble of slot `r`, so none in
another slot's nibble and none in a flag, and it differs from `K1B_PERF_STOP(r)` and
from `K1B_PERF_RESET(r)`. -/
theorem k1b_perf_start_encoding (r : Nat) (event : Int) (hr : r < 4)
    (he : k1b_perf_event_is_valid event = true) :
    K1B_PERF_START r event.toNat = event.toNat <<< (4 * r) ∧
    K1B_PERF_START r event.toNat &&& not32 (K1B_PERF_MASK r) = 0 ∧
    K1B_PERF_START r event.toNat &&& K1B_PERF_MASK r = K1B_PERF_START r event.toNat ∧
    (∀ t, t < 4 → t ≠ r → K1B_PERF_START r event.toNat &&& K1B_PERF_MASK t = 0) ∧
    K1B_PERF_START r event.toNat &&& (K1B_PERF_CHAIN_0_1 ||| K1B_PERF_CHAIN_2_3
      ||| K1B_PERF_DMC ||| K1B_PERF_SMP ||| K1B_PERF_SMD) = 0 ∧
    K1B_PERF_START r event.toNat ≠ K1B_PERF_STOP r ∧
    K1B_PERF_START r event.toNat ≠ K1B_PERF_RESET r := by
  rw [event_valid_iff] at he
  obtain ⟨e, he14, rfl⟩ := valid_event_is_nat event he
  rw [Int.toNat_ofNat]
  interval_cases r <;> interval_cases e <;>
    refine ⟨by decide, by decide, by decide, ?_, by decide, by decide, by decide⟩ <;>
    intro t ht hne <;> interval_cases t <;> first | exact absurd rfl hne | decide

/-- Instance of C15: event 13 in slot 3. -/
theorem k1b_perf_start_encoding_witness :
    (3 : Nat) < 4 ∧ k1b_perf_event_is_valid 13 = true ∧
    K1B_PERF_START 3 (13 : Int).toNat &&& not32 (K1B_PERF_MASK 3) = 0 ∧
    K1B_PERF_START 3 (13 : Int).toNat ≠ K1B_PERF_STOP 3 :=
  ⟨by decide, by decide,
   (k1b_perf_start_encoding 3 13 (by decide) (by decide)).2.1,
   (k1b_perf_start_encoding 3 13 (by decide) (by decide)).2.2.2.2.2.1⟩

/-! ## The read sentinel, and the slot indices at the call sites -/

/-- The value read from a valid monitor, as a sum. -/
theorem k1b_perf_read_value_aux (s : Machine) (m : Nat) (hs : s.WF) (hm : m < 2) :
    k1b_perf_read m s = s.pm (2 * m + 1) * 2 ^ 32 + s.pm (2 * m) := by
  obtain ⟨-, h0, h1, h2, h3⟩ := hs
  have hm' : m = 0 ∨ m = 1 := by omega
  rcases hm' with rfl | rfl
  · simp only [k1b_perf_read, K1B_PERF_PM_0_1, Nat.cast_zero, if_true]
    exact glue64 _ _ h1 h0
  · simp only [k1b_perf_read, K1B_PERF_PM_0_1, K1B_PERF_PM_2_3, Nat.cast_one, one_ne_zero,
      if_false, if_true]
    exact glue64 _ _ h3 h2

/-- C16: the sentinel is not exclusive to invalid input. For a monitor `m` in {0,1} and
32-bit raw counters, `k1b_perf_read(m)` is the all-ones value exactly when `pm[2m]` and
`pm[2m+1]` both hold `0xFFFFFFFF`; with any other contents the result differs from it. -/
theorem k1b_perf_read_sentinel (s : Machine) (m : Nat) (hs : s.WF) (hm : m < 2) :
    (k1b_perf_read m s = 0xFFFFFFFFFFFFFFFF ↔
      (s.pm (2 * m) = 0xFFFFFFFF ∧ s.pm (2 * m + 1) = 0xFFFFFFFF)) ∧
    (¬ (s.pm (2 * m) = 0xFFFFFFFF ∧ s.pm (2 * m + 1) = 0xFFFFFFFF) →
      k1b_perf_read m s ≠ k1b_perf_read (-1) s) := by
  have hval := (k1b_perf_read_value_aux s m hs hm)
  have hlo : s.pm (2 * m) < 2 ^ 32 := by
    obtain ⟨-, h0, h1, h2, h3⟩ := hs
    have hm' : m = 0 ∨ m = 1 := by omega
    rcases hm' with rfl | rfl
    · exact h0
    · exact h2
  have hhi : s.pm (2 * m + 1) < 2 ^ 32 := by
    obtain ⟨-, h0, h1, h2, h3⟩ := hs
    have hm' : m = 0 ∨ m = 1 := by omega
    rcases hm' with rfl | rfl
    · exact h1
    · exact h3
  have hinv : k1b_perf_read (-1) s = 0xFFFFFFFFFFFFFFFF := by
    have h0 : (-1 : Int) ≠ K1B_PERF_PM_0_1 := by decide
    have h1 : (-1 : Int) ≠ K1B_PERF_PM_2_3 := by decide
    simp only [k1b_perf_read, h0, h1, if_false]
    decide
  have hiff : k1b_perf_read m s = 0xFFFFFFFFFFFFFFFF ↔
      (s.pm (2 * m) = 0xFFFFFFFF ∧ s.pm (2 * m + 1) = 0xFFFFFFFF) := by
    rw [hval]
    constructor
    · intro h
      omega
    · rintro ⟨h1, h2⟩
      rw [h1, h2]
      decide
  refine ⟨hiff, fun hn => ?_⟩
  rw [hinv]
  exact fun h => hn (hiff.1 h)

/-- Instance of C16: monitor 1 of the example machine holds `0xFFFFFFFE` in its high
half, so its value is not the sentinel. -/
theorem k1b_perf_read_sentinel_witness :
    exampleMachine.WF ∧ (1 : Nat) < 2 ∧
    ¬ (exampleMachine.pm (2 * 1) = 0xFFFFFFFF ∧ exampleMachine.pm (2 * 1 + 1) = 0xFFFFFFFF) ∧
    k1b_perf_read (1 : Nat) exampleMachine ≠ k1b_perf_read (-1) exampleMachine :=
  ⟨by decide, by decide, by decide,
   (k1b_perf_read_sentinel exampleMachine 1 (by decide) (by decide)).2 (by decide)⟩

theorem slotY (m : Nat) (hm : m < 2) : (2 * m + 1) % 2 ^ 32 = 2 * m + 1 :=
  Nat.mod_eq_of_lt (by omega)

/-- The logged reset helper on a valid monitor: the helper itself, and its uses. -/
theorem reset_logged_valid (s : Machine) (m : Nat) (hm : m < 2) :
    k1b_perf_reset_logged m s =
      (k1b_perf_reset m s,
        [CodecUse.resetCall m, CodecUse.mask (2 * m), CodecUse.mask (2 * m + 1),
         CodecUse.reset (2 * m), CodecUse.reset (2 * m + 1)]) := by
  simp only [k1b_perf_reset_logged, k1b_perf_reset, orLogged, K1B_PERF_MASK_logged,
    K1B_PERF_RESET_logged, toU32_double m hm, slotY m hm, List.singleton_append,
    List.cons_append, List.nil_append]

/-- The logged stop on a valid monitor: stop itself, and its uses. -/
theorem stop_logged_valid (s : Machine) (m : Nat) (hm : m < 2) :
    k1b_perf_stop_logged m s =
      (k1b_perf_stop m s,
        [CodecUse.mask (2 * m), CodecUse.mask (2 * m + 1),
         CodecUse.stop (2 * m), CodecUse.stop (2 * m + 1)]) := by
  have hv : k1b_perf_monitor_is_valid (m : Int) = true := by
    rw [monitor_valid_iff]; omega
  simp only [k1b_perf_stop_logged, k1b_perf_stop, hv, orLogged, K1B_PERF_MASK_logged,
    K1B_PERF_STOP_logged, toU32_double m hm, slotY m hm, List.singleton_append,
    List.cons_append, List.nil_append, Bool.not_true, Bool.false_eq_true, if_false]

/-- The logged start on a valid monitor and event: start itself, and its uses. -/
theorem start_logged_valid (s : Machine) (m e : Nat) (hm : m < 2) (he : e < 14) :
    k1b_perf_start_logged m e s =
      (k1b_perf_start m e s,
        [CodecUse.resetCall m, CodecUse.mask (2 * m), CodecUse.mask (2 * m + 1),
         CodecUse.reset (2 * m), CodecUse.reset (2 * m + 1),
         CodecUse.mask (2 * m), CodecUse.mask (2 * m + 1),
         CodecUse.start (2 * m) e, CodecUse.start (2 * m + 1) e]) := by
  have hv : k1b_perf_monitor_is_valid (m : Int) = true := by
    rw [monitor_valid_iff]; omega
  have hev : k1b_perf_event_is_valid (e : Int) = true := by
    rw [event_valid_iff]; omega
  simp only [k1b_perf_start_logged, k1b_perf_start, hv, hev, reset_logged_valid s m hm,
    orLogged, K1B_PERF_MASK_logged, K1B_PERF_START_logged, toU32_double m hm, slotY m hm,
    List.singleton_append, List.cons_append, List.nil_append, Bool.not_true,
    Bool.false_eq_true, if_false, Int.toNat_ofNat]

theorem stop_logged_invalid (s : Machine) (perf : Int)
    (h : k1b_perf_monitor_is_valid perf = false) :
    k1b_perf_stop_logged perf s = (k1b_perf_stop perf s, []) := by
  simp [k1b_perf_stop_logged, k1b_perf_stop, h]

theorem start_logged_invalid (s : Machine) (perf event : Int)
    (h : k1b_perf_monitor_is_valid perf = false ∨ k1b_perf_event_is_valid event = false) :
    k1b_perf_start_logged perf event s = (k1b_perf_start perf event s, []) := by
  unfold k1b_perf_start_logged k1b_perf_start
  cases hv : k1b_perf_monitor_is_valid perf
  · simp
  · cases hev : k1b_perf_event_is_valid event
    · simp
    · rcases h with h | h
      · rw [hv] at h; exact absurd h (by decide)
      · rw [hev] at h; exact absurd h (by decide)

/-- The logged setup: setup itself, and its uses, which do not depend on the state. -/
theorem setup_logged_eq (s : Machine) :
    k1b_perf_setup_logged s =
      (k1b_perf_setup s,
        [CodecUse.stop 0, CodecUse.stop 1, CodecUse.stop 2, CodecUse.stop 3,
         CodecUse.resetCall 0, CodecUse.mask 0, CodecUse.mask 1,
         CodecUse.reset 0, CodecUse.reset 1,
         CodecUse.resetCall 1, CodecUse.mask 2, CodecUse.mask 3,
         CodecUse.reset 2, CodecUse.reset 3]) := by
  have r0 := fun t : Machine => reset_logged_valid t 0 (by decide)
  have r1 := fun t : Machine => reset_logged_valid t 1 (by decide)
  simp only [Nat.cast_zero, Nat.cast_one] at r0 r1
  simp only [k1b_perf_setup_logged, k1b_perf_setup, K1B_PERF_PM_0_1, K1B_PERF_PM_2_3, r0, r1,
    orLogged, K1B_PERF_STOP_logged, List.singleton_append, List.cons_append, List.nil_append]

/-- C17: every codec macro reached from the public operations gets a valid slot index.
The logged operations compute exactly what `k1b_perf_setup`, `k1b_perf_start`,
`k1b_perf_stop` and (after validation) `k1b_perf_reset` compute, and every use they log
is in range: the slot is in 0..3, the shift amount at most 12, the operand `0xe`, `0xf`
or an event in 0..13, the shifted value below `2^16`, and every call of the reset helper
has a monitor index that passes validation. After validation the slots are `pmX = 2 *
perf` (even) and `pmY = pmX + 1` (odd), in that order in every macro pair; setup uses
the slots 0, 1, 2, 3 and resets the monitors 0 and 1; a rejected start or stop expands
no macro and does not call the reset helper. -/
theorem k1b_perf_codec_slots_valid (perf event : Int) (s : Machine) :
    ((k1b_perf_setup_logged s).1 = k1b_perf_setup s ∧
      (k1b_perf_start_logged perf event s).1 = k1b_perf_start perf event s ∧
      (k1b_perf_stop_logged perf s).1 = k1b_perf_stop perf s ∧
      (k1b_perf_monitor_is_valid perf = true →
        (k1b_perf_reset_logged perf s).1 = k1b_perf_reset perf s)) ∧
    ((∀ u, u ∈ (k1b_perf_setup_logged s).2 → u.valid = true) ∧
      (∀ u, u ∈ (k1b_perf_start_logged perf event s).2 → u.valid = true) ∧
      (∀ u, u ∈ (k1b_perf_stop_logged perf s).2 → u.valid = true) ∧
      (k1b_perf_monitor_is_valid perf = true →
        ∀ u, u ∈ (k1b_perf_reset_logged perf s).2 → u.valid = true)) ∧
    ((k1b_perf_setup_logged s).2 =
        [CodecUse.stop 0, CodecUse.stop 1, CodecUse.stop 2, CodecUse.stop 3,
         CodecUse.resetCall K1B_PERF_PM_0_1, CodecUse.mask 0, CodecUse.mask 1,
         CodecUse.reset 0, CodecUse.reset 1,
         CodecUse.resetCall K1B_PERF_PM_2_3, CodecUse.mask 2, CodecUse.mask 3,
         CodecUse.reset 2, CodecUse.reset 3] ∧
      (k1b_perf_monitor_is_valid perf = true →
        (2 * perf.toNat) % 2 = 0 ∧ (2 * perf.toNat + 1) % 2 = 1 ∧ 2 * perf.toNat + 1 < 4 ∧
        (k1b_perf_reset_logged perf s).2 =
          [CodecUse.resetCall perf,
           CodecUse.mask (2 * perf.toNat), CodecUse.mask (2 * perf.toNat + 1),
           CodecUse.reset (2 * perf.toNat), CodecUse.reset (2 * perf.toNat + 1)] ∧
        (k1b_perf_stop_logged perf s).2 =
          [CodecUse.mask (2 * perf.toNat), CodecUse.mask (2 * perf.toNat + 1),
           CodecUse.stop (2 * perf.toNat), CodecUse.stop (2 * perf.toNat + 1)] ∧
        (k1b_perf_event_is_valid event = true →
          (k1b_perf_start_logged perf event s).2 =
            [CodecUse.resetCall perf,
             CodecUse.mask (2 * perf.toNat), CodecUse.mask (2 * perf.toNat + 1),
             CodecUse.reset (2 * perf.toNat), CodecUse.reset (2 * perf.toNat + 1),
             CodecUse.mask (2 * perf.toNat), CodecUse.mask (2 * perf.toNat + 1),
             CodecUse.start (2 * perf.toNat) event,
             CodecUse.start (2 * perf.toNat + 1) event])) ∧
      (k1b_perf_monitor_is_valid perf = false →
        (k1b_perf_stop_logged perf s).2 = [] ∧ (k1b_perf_start_logged perf event s).2 = []) ∧
      (k1b_perf_event_is_valid event = false →
        (k1b_perf_start_logged perf event s).2 = [])) := by
  have hsetup := setup_logged_eq s
  -- the operations on a rejected monitor or event
  have hstopInv : k1b_perf_monitor_is_valid perf = false →
      k1b_perf_stop_logged perf s = (k1b_perf_stop perf s, []) := stop_logged_invalid s perf
  have hstartInv : (k1b_perf_monitor_is_valid perf = false ∨
      k1b_perf_event_is_valid event = false) →
      k1b_perf_start_logged perf event s = (k1b_perf_start perf event s, []) :=
    start_logged_invalid s perf event
  -- the uses of an accepted monitor are in range
  have hmaskPair : ∀ m : Nat, m < 2 →
      (CodecUse.resetCall (m : Int)).valid = true ∧
      (CodecUse.mask (2 * m)).valid = true ∧ (CodecUse.mask (2 * m + 1)).valid = true ∧
      (CodecUse.reset (2 * m)).valid = true ∧ (CodecUse.reset (2 * m + 1)).valid = true ∧
      (CodecUse.stop (2 * m)).valid = true ∧ (CodecUse.stop (2 * m + 1)).valid = true := by
    intro m hm
    interval_cases m <;> decide
  have hstartPair : ∀ m e : Nat, m < 2 → e < 14 →
      (CodecUse.start (2 * m) (e : Int)).valid = true ∧
      (CodecUse.start (2 * m + 1) (e : Int)).valid = true := by
    intro m e hm he
    interval_cases m <;> interval_cases e <;> decide
  refine ⟨⟨by rw [hsetup], ?_, ?_, ?_⟩, ⟨?_, ?_, ?_, ?_⟩, ⟨by rw [hsetup]; rfl, ?_, ?_, ?_⟩⟩
  · -- start computes the same
    cases hv : k1b_perf_monitor_is_valid perf
    · rw [hstartInv (Or.inl hv)]
    · cases hev : k1b_perf_event_is_valid event
      · rw [hstartInv (Or.inr hev)]
      · obtain ⟨m, hm, rfl⟩ := valid_int_is_nat perf ((monitor_valid_iff perf).1 hv)
        obtain ⟨e, he, rfl⟩ := valid_event_is_nat event ((event_valid_iff event).1 hev)
        rw [start_logged_valid s m e hm he]
  · -- stop computes the same
    cases hv : k1b_perf_monitor_is_valid perf
    · rw [hstopInv hv]
    · obtain ⟨m, hm, rfl⟩ := valid_int_is_nat perf ((monitor_valid_iff perf).1 hv)
      rw [stop_logged_valid s m hm]
  · -- reset computes the same
    intro hv
    obtain ⟨m, hm, rfl⟩ := valid_int_is_nat perf ((monitor_valid_iff perf).1 hv)
    rw [reset_logged_valid s m hm]
  · -- uses of setup
    rw [hsetup]
    show ∀ u, u ∈ [CodecUse.stop 0, CodecUse.stop 1, CodecUse.stop 2, CodecUse.stop 3,
      CodecUse.resetCall 0, CodecUse.mask 0, CodecUse.mask 1, CodecUse.reset 0,
      CodecUse.reset 1, CodecUse.resetCall 1, CodecUse.mask 2, CodecUse.mask 3,
      CodecUse.reset 2, CodecUse.reset 3] → u.valid = true
    decide
  · -- uses of start
    intro u hu
    cases hv : k1b_perf_monitor_is_valid perf
    · rw [hstartInv (Or.inl hv)] at hu
      exact absurd hu (List.not_mem_nil u)
    · cases hev : k1b_perf_event_is_valid event
      · rw [hstartInv (Or.inr hev)] at hu
        exact absurd hu (List.not_mem_nil u)
      · obtain ⟨m, hm, rfl⟩ := valid_int_is_nat perf ((monitor_valid_iff perf).1 hv)
        obtain ⟨e, he, rfl⟩ := valid_event_is_nat event ((event_valid_iff event).1 hev)
        rw [start_logged_valid s m e hm he] at hu
        obtain ⟨a1, a2, a3, a4, a5, -, -⟩ := hmaskPair m hm
        obtain ⟨b1, b2⟩ := hstartPair m e hm he
        simp only [List.mem_cons, List.mem_singleton, List.not_mem_nil, or_false] at hu
        rcases hu with rfl | rfl | rfl | rfl | rfl | rfl | rfl | rfl | rfl <;> assumption
  · -- uses of stop
    intro u hu
    cases hv : k1b_perf_monitor_is_valid perf
    · rw [hstopInv hv] at hu
      exact absurd hu (List.not_mem_nil u)
    · obtain ⟨m, hm, rfl⟩ := valid_int_is_nat perf ((monitor_valid_iff perf).1 hv)
      rw [stop_logged_valid s m hm] at hu
      obtain ⟨-, a2, a3, -, -, a6, a7⟩ := hmaskPair m hm
      simp only [List.mem_cons, List.mem_singleton, List.not_mem_nil, or_false] at hu
      rcases hu with rfl | rfl | rfl | rfl <;> assumption
  · -- uses of reset
    intro hv u hu
    obtain ⟨m, hm, rfl⟩ := valid_int_is_nat perf ((monitor_valid_iff perf).1 hv)
    rw [reset_logged_valid s m hm] at hu
    obtain ⟨a1, a2, a3, a4, a5, -, -⟩ := hmaskPair m hm
    simp only [List.mem_cons, List.mem_singleton, List.not_mem_nil, or_false] at hu
    rcases hu with rfl | rfl | rfl | rfl | rfl <;> assumption
  · -- the slots of an accepted monitor
    intro hv
    obtain ⟨m, hm, rfl⟩ := valid_int_is_nat perf ((monitor_valid_iff perf).1 hv)
    rw [Int.toNat_ofNat, reset_logged_valid s m hm, stop_logged_valid s m hm]
    refine ⟨by omega, by omega, by omega, rfl, rfl, ?_⟩
    intro hev
    obtain ⟨e, he, rfl⟩ := valid_event_is_nat event ((event_valid_iff event).1 hev)
    rw [start_logged_valid s m e hm he]
  · intro hv
    rw [hstopInv hv, hstartInv (Or.inl hv)]
    exact ⟨rfl, rfl⟩
  · intro hev
    rw [hstartInv (Or.inr hev)]

/-- Instance of C17: a stop of monitor 1 on the example machine expands `K1B_PERF_MASK`
and `K1B_PERF_STOP` with the slots 2 and 3, and the use of slot 3 is in range. -/
theorem k1b_perf_codec_slots_valid_witness :
    k1b_perf_monitor_is_valid 1 = true ∧
    (k1b_perf_stop_logged 1 exampleMachine).1 = k1b_perf_stop 1 exampleMachine ∧
    (k1b_perf_stop_logged 1 exampleMachine).2 =
      [CodecUse.mask 2, CodecUse.mask 3, CodecUse.stop 2, CodecUse.stop 3] ∧
    (CodecUse.stop 3).valid = true :=
  ⟨by decide,
   (k1b_perf_codec_slots_valid 1 5 exampleMachine).1.2.2.1,
   ((k1b_perf_codec_slots_valid 1 5 exampleMachine).2.2.2.1 (by decide)).2.2.2.2.1,
   (k1b_perf_codec_slots_valid 1 5 exampleMachine).2.1.2.2.1 (CodecUse.stop 3) (by decide)⟩

/-! ## Operations on different monitors -/

theorem pairVal_bits (v k j : Nat) (hv : v < 16)
    (h : (v <<< k ||| v <<< (k + 4)).testBit j = true) : k ≤ j ∧ j < k + 8 := by
  rw [Nat.testBit_or, Nat.testBit_shiftLeft, Nat.testBit_shiftLeft] at h
  by_contra hc
  by_cases h1 : j < k
  · have h2 : ¬ (j ≥ k) := by omega
    have h3 : ¬ (j ≥ k + 4) := by omega
    simp [h2, h3] at h
  · have h4 : v.testBit (j - k) = false := testBit_high v 4 _ (by omega) (by omega)
    have h5 : v.testBit (j - (k + 4)) = false := testBit_high v 4 _ (by omega) (by omega)
    simp [h4, h5] at h

/-- Masked writes on the two monitors commute. -/
theorem rmw_comm (w V0 V1 : Nat)
    (h0 : ∀ j, V0.testBit j = true → 8 * 0 ≤ j ∧ j < 8 * 0 + 8)
    (h1 : ∀ j, V1.testBit j = true → 8 * 1 ≤ j ∧ j < 8 * 1 + 8) :
    (w &&& not32 (15 <<< (8 * 0) ||| 15 <<< (8 * 0 + 4)) ||| V0)
        &&& not32 (15 <<< (8 * 1) ||| 15 <<< (8 * 1 + 4)) ||| V1 =
    (w &&& not32 (15 <<< (8 * 1) ||| 15 <<< (8 * 1 + 4)) ||| V1)
        &&& not32 (15 <<< (8 * 0) ||| 15 <<< (8 * 0 + 4)) ||| V0 := by
  apply Nat.eq_of_testBit_eq
  intro i
  simp only [testBit_rmw]
  cases hv0 : V0.testBit i <;> cases hv1 : V1.testBit i
  · cases w.testBit i <;> cases decide (i < 32) <;>
      cases decide (8 * 0 ≤ i ∧ i < 8 * 0 + 8) <;>
      cases decide (8 * 1 ≤ i ∧ i < 8 * 1 + 8) <;> rfl
  · have hb := h1 i hv1
    have a : decide (i < 32) = true := decide_eq_true (by omega)
    have b : decide (8 * 0 ≤ i ∧ i < 8 * 0 + 8) = false := decide_eq_false (by omega)
    rw [a, b]
    simp
  · have hb := h0 i hv0
    have a : decide (i < 32) = true := decide_eq_true (by omega)
    have b : decide (8 * 1 ≤ i ∧ i < 8 * 1 + 8) = false := decide_eq_false (by omega)
    rw [a, b]
    simp
  · have hb := h0 i hv0
    have hc := h1 i hv1
    omega

/-- C18: operations on different monitors commute on the control register: for every
state and all valid events `e`, `f`, an operation among `start(0, e)`, `stop(0)` and an
operation among `start(1, f)`, `stop(1)` leave the same control word in either order. -/
theorem k1b_perf_monitors_commute (s : Machine) (e f : Nat) (c0 c1 : Call)
    (he : e < 14) (hf : f < 14)
    (h0 : c0 = Call.start 0 e ∨ c0 = Call.stop 0)
    (h1 : c1 = Call.start 1 f ∨ c1 = Call.stop 1) :
    (c1.exec (c0.exec s)).pmc = (c0.exec (c1.exec s)).pmc := by
  have st0 := fun t : Machine => start_valid t 0 e (by decide) he
  have st1 := fun t : Machine => start_valid t 1 f (by decide) hf
  have sp0 := fun t : Machine => stop_valid t 0 (by decide)
  have sp1 := fun t : Machine => stop_valid t 1 (by decide)
  simp only [Nat.cast_zero, Nat.cast_one] at st0 st1 sp0 sp1
  have bE : ∀ j, (e <<< (8 * 0) ||| e <<< (8 * 0 + 4)).testBit j = true →
      8 * 0 ≤ j ∧ j < 8 * 0 + 8 := fun j hj => pairStart_bits e _ j he hj
  have bF : ∀ j, (f <<< (8 * 1) ||| f <<< (8 * 1 + 4)).testBit j = true →
      8 * 1 ≤ j ∧ j < 8 * 1 + 8 := fun j hj => pairStart_bits f _ j hf hj
  have bS0 : ∀ j, (14 <<< (8 * 0) ||| 14 <<< (8 * 0 + 4)).testBit j = true →
      8 * 0 ≤ j ∧ j < 8 * 0 + 8 := fun j hj => pairStop_bits _ j hj
  have bS1 : ∀ j, (14 <<< (8 * 1) ||| 14 <<< (8 * 1 + 4)).testBit j = true →
      8 * 1 ≤ j ∧ j < 8 * 1 + 8 := fun j hj => pairStop_bits _ j hj
  rcases h0 with rfl | rfl <;> rcases h1 with rfl | rfl
  · simp only [Call.exec, st0, st1]
    exact rmw_comm _ _ _ bE bF
  · simp only [Call.exec, st0, sp1]
    exact rmw_comm _ _ _ bE bS1
  · simp only [Call.exec, sp0, st1]
    exact rmw_comm _ _ _ bS0 bF
  · simp only [Call.exec, sp0, sp1]
    exact rmw_comm _ _ _ bS0 bS1

/-- Instance of C18: `start(0, 3)` and `stop(1)` on the example machine. -/
theorem k1b_perf_monitors_commute_witness :
    (3 : Nat) < 14 ∧ (9 : Nat) < 14 ∧
    ((Call.stop 1).exec ((Call.start 0 (3 : Nat)).exec exampleMachine)).pmc =
      ((Call.start 0 (3 : Nat)).exec ((Call.stop 1).exec exampleMachine)).pmc ∧
    ((Call.stop 1).exec ((Call.start 0 (3 : Nat)).exec exampleMachine)).pmc = 0xABCDEE33 :=
  ⟨by decide, by decide,
   k1b_perf_monitors_commute exampleMachine 3 9 (Call.start 0 (3 : Nat)) (Call.stop 1)
     (by decide) (by decide) (Or.inl rfl) (Or.inr rfl),
   by decide⟩

/-! ## The reachable control words -/

theorem pmcInvariant_lt (w : Nat) (h : pmcInvariant w) : w < 2 ^ 32 := by
  have h16 := h.1
  rw [Nat.shiftRight_eq_div_pow] at h16
  omega

/-- A masked write of one 4-bit value into both nibbles of a monitor keeps the shape. -/
theorem pmcInvariant_rmw (w v m : Nat) (hm : m < 2) (hv : v < 16) (h : pmcInvariant w) :
    pmcInvariant (w &&& not32 (15 <<< (8 * m) ||| 15 <<< (8 * m + 4))
      ||| (v <<< (8 * m) ||| v <<< (8 * m + 4))) := by
  have hout := agreeOutside_rmw w (v <<< (8 * m) ||| v <<< (8 * m + 4)) m
    (pmcInvariant_lt w h) (fun j hj => pairVal_bits v _ j hv hj)
  have hnib := slotNibble_rmw w v m hv
  have hhigh := agreeOutside_high m w _ hm hout
  have hm' : m = 0 ∨ m = 1 := by omega
  rcases hm' with rfl | rfl
  · refine ⟨hhigh.trans h.1, ?_, ?_⟩
    · exact hnib.1.trans hnib.2.symm
    · rw [agreeOutside_nibble 0 w _ 2 hout (by decide) (by decide),
        agreeOutside_nibble 0 w _ 3 hout (by decide) (by decide)]
      exact h.2.2
  · refine ⟨hhigh.trans h.1, ?_, ?_⟩
    · rw [agreeOutside_nibble 1 w _ 0 hout (by decide) (by decide),
        agreeOutside_nibble 1 w _ 1 hout (by decide) (by decide)]
      exact h.2.1
    · exact hnib.1.trans hnib.2.symm

theorem pmcInvariant_exec (c : Call) (s : Machine) (h : pmcInvariant s.pmc) :
    pmcInvariant (c.exec s).pmc := by
  cases c with
  | start perf event =>
    by_cases hv : 0 ≤ perf ∧ perf < 2 ∧ 0 ≤ event ∧ event < 14
    · obtain ⟨m, hm, rfl⟩ := valid_int_is_nat perf ⟨hv.1, hv.2.1⟩
      obtain ⟨e, he, rfl⟩ := valid_event_is_nat event ⟨hv.2.2.1, hv.2.2.2⟩
      simp only [Call.exec, start_valid s m e hm he]
      exact pmcInvariant_rmw s.pmc e m hm (by omega) h
    · simp only [Call.exec, start_invalid s perf event hv]
      exact h
  | stop perf =>
    by_cases hv : 0 ≤ perf ∧ perf < 2
    · obtain ⟨m, hm, rfl⟩ := valid_int_is_nat perf hv
      simp only [Call.exec, stop_valid s m hm]
      exact pmcInvariant_rmw s.pmc 14 m hm (by omega) h
    · simp only [Call.exec, stop_invalid s perf hv]
      exact h

theorem pmcInvariant_runCalls (cs : List Call) (s : Machine) (h : pmcInvariant s.pmc) :
    pmcInvariant (runCalls cs s).pmc := by
  induction cs generalizing s with
  | nil => exact h
  | cons c cs ih =>
    have hstep : runCalls (c :: cs) s = runCalls cs (c.exec s) := rfl
    rw [hstep]
    exact ih (c.exec s) (pmcInvariant_exec c s h)

/-- C19: in every control word reachable from `k1b_perf_setup()` by a finite sequence of
`k1b_perf_start` and `k1b_perf_stop` calls with arbitrary `int` arguments, the five flag
bits 16..20 are set, bits 21..31 (and everything above) are clear, and the nibbles of the
two chained slots `2m` and `2m+1` of each monitor hold the same 4-bit value. -/
theorem k1b_perf_reachable_invariant (s : Machine) (cs : List Call) :
    pmcInvariant (runCalls cs (k1b_perf_setup s)).pmc ∧
    (∀ i, 16 ≤ i → i ≤ 20 → (runCalls cs (k1b_perf_setup s)).pmc.testBit i = true) ∧
    (∀ i, 21 ≤ i → (runCalls cs (k1b_perf_setup s)).pmc.testBit i = false) ∧
    (∀ m, m < 2 →
      slotNibble (runCalls cs (k1b_perf_setup s)).pmc (2 * m) =
        slotNibble (runCalls cs (k1b_perf_setup s)).pmc (2 * m + 1)) := by
  have h0 : pmcInvariant (k1b_perf_setup s).pmc := by
    have hp : (k1b_perf_setup s).pmc = 0x001FFFFF := by rw [setup_closed]
    rw [hp]
    decide
  have h := pmcInvariant_runCalls cs (k1b_perf_setup s) h0
  have hbit : ∀ i, 16 ≤ i → (runCalls cs (k1b_perf_setup s)).pmc.testBit i
      = Nat.testBit 0x1f (i - 16) := by
    intro i hi
    rw [← h.1, Nat.testBit_shiftRight]
    congr 1
    omega
  refine ⟨h, ?_, ?_, ?_⟩
  · intro i h16 h20
    rw [hbit i h16]
    have hi : i - 16 < 5 := by omega
    interval_cases hk : i - 16 <;> decide
  · intro i h21
    rw [hbit i (by omega)]
    exact testBit_high 0x1f 5 _ (by decide) (by omega)
  · intro m hm
    have hm' : m = 0 ∨ m = 1 := by omega
    rcases hm' with rfl | rfl
    · exact h.2.1
    · exact h.2.2

/-- Instance of C19: after setup, a start of monitor 0, a rejected start and a stop of
monitor 1, bit 18 is set and the chained nibbles of monitor 1 are equal. -/
theorem k1b_perf_reachable_invariant_witness :
    (16 ≤ 18 ∧ 18 ≤ 20) ∧
    (runCalls [Call.start 0 5, Call.start 7 (-2), Call.stop 1]
      (k1b_perf_setup exampleMachine)).pmc.testBit 18 = true ∧
    (runCalls [Call.start 0 5, Call.start 7 (-2), Call.stop 1]
      (k1b_perf_setup exampleMachine)).pmc = 0x001FEE55 :=
  ⟨by decide,
   (k1b_perf_reachable_invariant exampleMachine
      [Call.start 0 5, Call.start 7 (-2), Call.stop 1]).2.1 18 (by decide) (by decide),
   by decide⟩

end K1bPerf
